import Mathlib

/-!
# phaul client: the convergence loop of `Client.Migrate`

A shallow embedding of `phaul/client.go`: the stop policy `isLastIter` and the
orchestrator `Client.Migrate`, which prepares the engine, runs the pre-dump
loop, and brackets the final dump/copy/restore between a last pair of peer
calls.

The collaborators (`criu`, the `Remote` peer, the `Local` finaliser, the file
system and the `crit` decoder) are kept abstract: an `Env` answers every call
as a function of the whole history of calls made so far, and `Migrate` records
each call together with its answer in a trace.  The `for { ... }` loop has no
syntactic bound, so the embedding runs it on fuel and the bound is proved.

Integers: `int` and `int64` are 64-bit two's complement, `uint64` counts are
natural numbers reduced modulo `2 ^ 64`.
-/

namespace Phaul

/-! ## Machine integers -/

/-- The `int64` (and 64-bit `int`) holding the integer `x`: two's complement wrap-around. -/
def toInt64 (x : Int) : Int := (x + 2 ^ 63) % 2 ^ 64 - 2 ^ 63

/-- The `int32` holding the integer `x`: two's complement wrap-around. -/
def toInt32 (x : Int) : Int := (x + 2 ^ 31) % 2 ^ 32 - 2 ^ 31

/-- The `uint64` holding the natural number `n`. -/
def toUint64 (n : Nat) : Nat := n % 2 ^ 64

/-! ## Constants (`client.go` lines 13-17) -/

/-- Source: `minPagesWritten uint64 = 64`. -/
def minPagesWritten : Nat := 64

/-- Source: `maxIters int = 8`. -/
def maxIters : Int := 8

/-- Source: `maxGrowDelta int64 = 32`. -/
def maxGrowDelta : Int := 32

/-! ## Data -/

/-- A Go `error` value that is not nil. -/
structure Error where
  msg : String
deriving DecidableEq, Repr

/-- A Go result pair `(value, error)`: exactly one side is meaningful. -/
inductive Res (α : Type) where
  | ok (v : α)
  | err (e : Error)
deriving DecidableEq, Repr

/-- The message `images.DumpStatsEntry`, reduced to the one field the client reads.
The field is a `*uint64`: it may be absent. -/
structure DumpStatsEntry where
  PagesWritten : Option Nat
deriving DecidableEq, Repr

/-- The generated getter `(*DumpStatsEntry).GetPagesWritten`: nil-safe on the
receiver and on the field, zero in both cases. -/
def GetPagesWritten (x : Option DumpStatsEntry) : Nat :=
  match x with
  | some ⟨some v⟩ => toUint64 v
  | _ => 0

/-- The message held by an entry of a decoded image: a `*images.StatsEntry`
whose `GetDump()` is `dump` (possibly nil), or anything else (another message
type, or nil), on which the type assertion of line 120 panics. -/
inductive Message where
  | stats (dump : Option DumpStatsEntry)
  | other
deriving DecidableEq, Repr

/-- The decoded image `crit` hands back: its list of entries. -/
structure CriuImage where
  Entries : List Message
deriving DecidableEq, Repr

/-- The line `isLastIter` prints when it decides to stop, with the value
substituted for `%d`. -/
inductive LogLine where
  | maxItersReached
  | tinyPreDump (pages : Int)
  | growIter (delta : Int)
deriving DecidableEq, Repr

/-! ## The stop policy (`client.go` lines 36-55) -/

/-- Source `isLastIter`, with what it prints: the decision and the printed line. -/
def isLastIterLog (iter : Int) (stats prevStats : Option DumpStatsEntry) :
    Bool × Option LogLine :=
  if iter ≥ maxIters then
    (true, some LogLine.maxItersReached)
  else
    let pagesWritten := GetPagesWritten stats
    if pagesWritten < minPagesWritten then
      (true, some (LogLine.tinyPreDump (toInt64 pagesWritten)))
    else
      let pagesDelta := toInt64 (toInt64 pagesWritten - toInt64 (GetPagesWritten prevStats))
      if pagesDelta ≥ maxGrowDelta then
        (true, some (LogLine.growIter pagesDelta))
      else
        (false, none)

/-- Source `isLastIter`: the returned decision. -/
def isLastIter (iter : Int) (stats prevStats : Option DumpStatsEntry) : Bool :=
  (isLastIterLog iter stats prevStats).1

/-- Source line 48: `int64(pagesWritten) - int64(prevStats.GetPagesWritten())`, the
growth `isLastIter` compares with `maxGrowDelta`. -/
def pagesDelta (stats prevStats : Option DumpStatsEntry) : Int :=
  toInt64 (toInt64 (GetPagesWritten stats) - toInt64 (GetPagesWritten prevStats))

/-! ## Collaborators and the call trace -/

/-- Modelled from the spec: the type `Config` is declared outside `client.go`; section 3
describes it as the target process identifier, the descriptor of the page-transfer
channel and the working directory for the snapshots. -/
structure Config where
  Pid : Int
  Memfd : Int
  Wdir : String
deriving DecidableEq, Repr

/-- The fields of `images.CriuOpts` that `Migrate` sets. `Ps` is the page-server
record, of which only `Fd` is set. -/
structure CriuOpts where
  Pid : Int
  LogLevel : Int
  LogFile : String
  PsFd : Int
  ImagesDirFd : Option Int
  ParentImg : Option String
deriving DecidableEq, Repr

/-- An open directory handle (`*os.File`): its name and its descriptor. -/
structure Dir where
  Name : String
  Fd : Nat
deriving DecidableEq, Repr

/-- One call made by `Migrate`, with its arguments and its answer. -/
inductive Event where
  | Prepare (r : Option Error)
  | Cleanup
  | preparePhaulImages (r : Option Error)
  | StartIter (r : Option Error)
  | openNextDir (r : Res Dir)
  | PreDump (opts : CriuOpts) (r : Option Error)
  | Close (d : Dir)
  | StopIter (r : Option Error)
  | Decode (path : String) (r : Res CriuImage)
  | isLastIter (iter : Int) (stats prevStats : Option DumpStatsEntry) (r : Bool)
  | DumpCopyRestore (parent : String) (r : Option Error)
deriving DecidableEq, Repr

/-- The behaviour of the collaborators: every answer may depend on everything
that happened before it (the trace of earlier calls) and on the arguments. -/
structure Env where
  /-- Answer of `criu.Prepare()`. -/
  Prepare : Option Error
  /-- Error result of `preparePhaulImages(pc.cfg.Wdir)`. -/
  preparePhaulImages : Option Error
  /-- Answer of `pc.remote.StartIter()`. -/
  StartIter : List Event → Option Error
  /-- Creating and opening the directory at a path: its descriptor, or an error. -/
  openDir : List Event → String → Res Nat
  /-- Answer of `criu.PreDump(opts, nil)`. -/
  PreDump : List Event → CriuOpts → Option Error
  /-- Answer of `pc.remote.StopIter()`. -/
  StopIter : List Event → Option Error
  /-- Answer of `crit.New(path, ...).Decode()`. -/
  Decode : List Event → String → Res CriuImage
  /-- Answer of `pc.local.DumpCopyRestore(criu, pc.cfg, parent)`. -/
  DumpCopyRestore : List Event → Config → String → Option Error

/-! ## The snapshot directory sequence -/

/-- Modelled from the spec: the type behind `imgs` is declared outside `client.go`;
section 4.1 describes an append-only sequence of directories inside the working
directory. `opened` lists the paths opened so far, oldest first. -/
structure Images where
  dir : String
  opened : List String
deriving DecidableEq, Repr

/-- Modelled from the spec: path of directory number `idx`, "numbered sequentially
from 0, inside the configured working directory". -/
def getPath (wdir : String) (idx : Nat) : String :=
  wdir ++ "/" ++ toString idx

/-- Modelled from the spec: `lastPath()` of section 4.1, "the path of the most
recently opened directory, or an empty value before any directory has been opened". -/
def Images.lastImagesDir (i : Images) : String :=
  match i.opened.getLast? with
  | some p => p
  | none => ""

/-- Modelled from the spec: `openNext()` of section 4.1, "creates and returns the next
directory in the sequence; fails if directory creation fails". `created` is what
the file system answered for the path of the next directory. -/
def Images.openNextDir (i : Images) (created : Res Nat) : Res Dir × Images :=
  let ipath := getPath i.dir i.opened.length
  match created with
  | Res.err e => (Res.err e, i)
  | Res.ok fd => (Res.ok ⟨ipath, fd⟩, { i with opened := i.opened ++ [ipath] })

/-- Stand-in for `filepath.Join(dir, name)`. -/
def joinPath (dir name : String) : String := dir ++ "/" ++ name

/-! ## `Client.Migrate` (`client.go` lines 58-140) -/

/-- The variables of `Migrate` that live across loop rounds, and the trace so far. -/
structure LoopState where
  imgs : Images
  opts : CriuOpts
  prevStats : Option DumpStatsEntry
  iter : Int
  trace : List Event

/-- How one round leaves the `for` loop, when it does. -/
inductive Exit where
  | ret (err : Error)
  | panic
  | brk
deriving DecidableEq, Repr

/-- One round of the loop body, lines 85-126. The second component is `none` when the
round falls through to the next one. -/
def round (env : Env) (st : LoopState) : LoopState × Option Exit :=
  let err := env.StartIter st.trace
  let t1 := st.trace ++ [Event.StartIter err]
  match err with
  | some e => ({ st with trace := t1 }, some (Exit.ret e))
  | none =>
    let prevP := st.imgs.lastImagesDir
    let opened := st.imgs.openNextDir (env.openDir t1 (getPath st.imgs.dir st.imgs.opened.length))
    let t2 := t1 ++ [Event.openNextDir opened.1]
    match opened.1 with
    | Res.err e => ({ st with imgs := opened.2, trace := t2 }, some (Exit.ret e))
    | Res.ok imgDir =>
      let opts1 := { st.opts with ImagesDirFd := some (toInt32 imgDir.Fd) }
      let opts2 := if prevP ≠ "" then { opts1 with ParentImg := some prevP } else opts1
      let err := env.PreDump t2 opts2
      let t3 := t2 ++ [Event.PreDump opts2 err, Event.Close imgDir]
      match err with
      | some e => ({ st with imgs := opened.2, opts := opts2, trace := t3 }, some (Exit.ret e))
      | none =>
        let iter := toInt64 (st.iter + 1)
        let err := env.StopIter t3
        let t4 := t3 ++ [Event.StopIter err]
        match err with
        | some e =>
          ({ st with imgs := opened.2, opts := opts2, iter := iter, trace := t4 },
            some (Exit.ret e))
        | none =>
          let path := joinPath imgDir.Name "stats-dump"
          let decoded := env.Decode t4 path
          let t5 := t4 ++ [Event.Decode path decoded]
          let st5 : LoopState :=
            { st with imgs := opened.2, opts := opts2, iter := iter, trace := t5 }
          match decoded with
          | Res.err e => (st5, some (Exit.ret e))
          | Res.ok statsImg =>
            match statsImg.Entries with
            | [] => (st5, some Exit.panic)
            | Message.other :: _ => (st5, some Exit.panic)
            | Message.stats stats :: _ =>
              let last := isLastIter iter stats st.prevStats
              let t6 := t5 ++ [Event.isLastIter iter stats st.prevStats last]
              if last then
                ({ st5 with trace := t6 }, some Exit.brk)
              else
                ({ st5 with prevStats := stats, trace := t6 }, none)

/-- The `for { ... }` of lines 84-127, on fuel: `none` means the fuel ran out. -/
def loop (env : Env) : Nat → LoopState → Option (LoopState × Exit)
  | 0, _ => none
  | fuel + 1, st =>
    match round env st with
    | (st1, some x) => some (st1, x)
    | (st1, none) => loop env fuel st1

/-- Lines 129-139: the final round. Returns `err` and the trace. -/
def finalPhase (env : Env) (cfg : Config) (st : LoopState) : Option Error × List Event :=
  let err := env.StartIter st.trace
  let t1 := st.trace ++ [Event.StartIter err]
  match err with
  | some e => (some e, t1)
  | none =>
    let prevP := st.imgs.lastImagesDir
    let err := env.DumpCopyRestore t1 cfg prevP
    let t2 := t1 ++ [Event.DumpCopyRestore prevP err]
    let err2 := env.StopIter t2
    let t3 := t2 ++ [Event.StopIter err2]
    match err with
    | none => (err2, t3)
    | some e => (some e, t3)

/-- What a call of `Migrate` ends with: a returned `error` (nil or not), or a panic. -/
inductive Outcome where
  | ret (err : Option Error)
  | panic
deriving DecidableEq, Repr

/-- A finished call of `Migrate`: its outcome and every call it made, in order. -/
structure Run where
  outcome : Outcome
  trace : List Event
deriving DecidableEq, Repr

/-- Lines 81-139, once `criu.Prepare` and `preparePhaulImages` have succeeded: the loop,
then the final round, then the deferred `criu.Cleanup()`. -/
def afterLoop (env : Env) (cfg : Config) (st : LoopState) (x : Exit) : Run :=
  match x with
  | Exit.ret e => ⟨Outcome.ret (some e), st.trace ++ [Event.Cleanup]⟩
  | Exit.panic => ⟨Outcome.panic, st.trace ++ [Event.Cleanup]⟩
  | Exit.brk =>
    let fin := finalPhase env cfg st
    ⟨Outcome.ret fin.1, fin.2 ++ [Event.Cleanup]⟩

/-- The variables of `Migrate` on entry to the loop (lines 60-68, 77, 81-82). -/
def initState (cfg : Config) : LoopState :=
  { imgs := ⟨cfg.Wdir, []⟩
    opts :=
      { Pid := toInt32 cfg.Pid, LogLevel := 4, LogFile := "pre-dump.log",
        PsFd := toInt32 cfg.Memfd, ImagesDirFd := none, ParentImg := none }
    prevStats := some ⟨none⟩
    iter := 0
    trace := [Event.Prepare none, Event.preparePhaulImages none] }

/-- Source `(*Client).Migrate`, on fuel for its loop: `none` means the fuel ran out. -/
def Migrate (fuel : Nat) (env : Env) (cfg : Config) : Option Run :=
  match env.Prepare with
  | some e => some ⟨Outcome.ret (some e), [Event.Prepare (some e)]⟩
  | none =>
    match env.preparePhaulImages with
    | some e =>
      some ⟨Outcome.ret (some e),
        [Event.Prepare none, Event.preparePhaulImages (some e), Event.Cleanup]⟩
    | none =>
      match loop env fuel (initState cfg) with
      | none => none
      | some (st, x) => some (afterLoop env cfg st x)

/-! ## Reading a trace -/

/-- A call of `pc.remote.StartIter`. -/
def Event.isStartIter : Event → Bool
  | Event.StartIter _ => true
  | _ => false

/-- A call of `pc.remote.StopIter`. -/
def Event.isStopIter : Event → Bool
  | Event.StopIter _ => true
  | _ => false

/-- A call of `imgs.openNextDir` that opened a directory. -/
def Event.isOpened : Event → Bool
  | Event.openNextDir (Res.ok _) => true
  | _ => false

/-- An attempted pre-dump: a call of `criu.PreDump`. -/
def Event.isPreDump : Event → Bool
  | Event.PreDump _ _ => true
  | _ => false

/-- A pre-dump that succeeded. -/
def Event.isOkPreDump : Event → Bool
  | Event.PreDump _ none => true
  | _ => false

/-- A call of `pc.local.DumpCopyRestore`. -/
def Event.isDumpCopyRestore : Event → Bool
  | Event.DumpCopyRestore _ _ => true
  | _ => false

/-- An evaluation of the policy that answered true: the `break` of line 123. -/
def Event.isBreak : Event → Bool
  | Event.isLastIter _ _ _ true => true
  | _ => false

/-- The error a step of the loop body answered, if it failed: `StartIter`,
`openNextDir`, `PreDump`, `StopIter` or `Decode`. -/
def Event.failure : Event → Option Error
  | Event.StartIter (some e) => some e
  | Event.openNextDir (Res.err e) => some e
  | Event.PreDump _ (some e) => some e
  | Event.StopIter (some e) => some e
  | Event.Decode _ (Res.err e) => some e
  | _ => none

/-- The directories opened in a trace, oldest first. -/
def openedDirs : List Event → List Dir
  | [] => []
  | Event.openNextDir (Res.ok d) :: t => d :: openedDirs t
  | _ :: t => openedDirs t

/-- The statistics the policy was evaluated on in a trace, oldest first. -/
def policyStats : List Event → List (Option DumpStatsEntry)
  | [] => []
  | Event.isLastIter _ s _ _ :: t => s :: policyStats t
  | _ :: t => policyStats t

/-- The pages-written count of the latest round whose statistics reached the policy;
zero when there is none yet. -/
def prevPages (tr : List Event) : Nat :=
  match (policyStats tr).getLast? with
  | some s => GetPagesWritten s
  | none => 0

/-- The calls of the final round (lines 129-139) followed by the deferred clean-up:
either the last `StartIter` fails and nothing else is called, or it succeeds and
`DumpCopyRestore` and `StopIter` are each called once, in this order. -/
def FinalShape (post : List Event) : Prop :=
  (∃ e, post = [Event.StartIter (some e), Event.Cleanup]) ∨
  (∃ parent rd rs, post =
    [Event.StartIter none, Event.DumpCopyRestore parent rd, Event.StopIter rs, Event.Cleanup])

/-- A call of `pc.remote.StartIter` or `pc.remote.StopIter`. -/
def Event.isPeer (e : Event) : Bool := e.isStartIter || e.isStopIter

/-- The calls made on the peer in a trace, in order. -/
def peerCalls (tr : List Event) : List Event := tr.filter Event.isPeer

/-- Two consecutive peer calls: a `StartIter` that succeeded and then a `StopIter`, or a
`StopIter` that succeeded and then a `StartIter`. -/
def peerNext (a b : Event) : Prop :=
  (a = Event.StartIter none ∧ b.isStopIter = true) ∨
  (a = Event.StopIter none ∧ b.isStartIter = true)

/-- The next peer call after a point of the trace is a `StopIter`: `post` holds a
`StopIter` with no peer call before it. -/
def StopIterNext (post : List Event) : Prop :=
  ∃ mid rs rest, post = mid ++ Event.StopIter rs :: rest ∧ ∀ x ∈ mid, x.isPeer = false

/-- The deferred call of `criu.Cleanup`. -/
def Event.isCleanup : Event → Bool
  | Event.Cleanup => true
  | _ => false

/-- A call of `imgDir.Close`. -/
def Event.isClose : Event → Bool
  | Event.Close _ => true
  | _ => false

/-! ## The shape of a run

The definitions below serve the proofs: the traces of completed rounds, the facts that
hold of a call given the calls before it, the loop invariant, and the list of every way a
round and a whole run can go. -/

/-- The seven calls of a round that falls through to the next one. -/
def fullRound (d : Dir) (o : CriuOpts) (path : String) (img : CriuImage) (i : Int)
    (s q : Option DumpStatsEntry) : List Event :=
  [Event.StartIter none, Event.openNextDir (Res.ok d), Event.PreDump o none, Event.Close d,
    Event.StopIter none, Event.Decode path (Res.ok img), Event.isLastIter i s q false]

/-- Traces made of the two successful preparation calls followed by `n` rounds that
fell through. -/
inductive Rounds : Nat → List Event → Prop
  | zero : Rounds 0 [Event.Prepare none, Event.preparePhaulImages none]
  | succ {n : Nat} {T : List Event} (d : Dir) (o : CriuOpts) (path : String) (img : CriuImage)
      (i : Int) (s q : Option DumpStatsEntry) :
      Rounds n T → Rounds (n + 1) (T ++ fullRound d o path img i s q)

/-- A property of every call of a trace, given the calls before it. -/
def PrefixAll (Q : List Event → Event → Prop) (T : List Event) : Prop :=
  ∀ pre ev post, T = pre ++ ev :: post → Q pre ev

/-- What holds of a call of `Migrate` in terms of the calls before it. -/
def Local (pre : List Event) : Event → Prop
  | Event.isLastIter i s p b =>
      i = (pre.countP Event.isOkPreDump : Int) ∧ b = isLastIter i s p ∧
        GetPagesWritten p = prevPages pre ∧ i = ((policyStats pre).length : Int) + 1
  | Event.PreDump o _ =>
      ∃ ds d, openedDirs pre = ds ++ [d] ∧ o.ParentImg = ds.getLast?.map Dir.Name ∧
        o.ImagesDirFd = some (toInt32 d.Fd) ∧ ds.length = pre.countP Event.isPreDump
  | Event.DumpCopyRestore parent _ =>
      ∃ ds d, openedDirs pre = ds ++ [d] ∧ parent = d.Name
  | _ => True

/-- The loop invariant, at the start of round `n + 1`. -/
def Inv (n : Nat) (st : LoopState) : Prop :=
  Rounds n st.trace ∧ st.iter = n ∧ n < 8 ∧
    GetPagesWritten st.prevStats = prevPages st.trace ∧
    st.imgs.opened = (openedDirs st.trace).map Dir.Name ∧
    (∀ d ∈ openedDirs st.trace, d.Name ≠ "") ∧
    (openedDirs st.trace = [] → st.opts.ParentImg = none) ∧
    PrefixAll Local st.trace

/-- The options a round passes to `criu.PreDump` once its directory, of descriptor `fd`,
is open (lines 96-99). -/
def roundOpts (st : LoopState) (fd : Nat) : CriuOpts :=
  if st.imgs.lastImagesDir ≠ "" then
    { st.opts with ImagesDirFd := some (toInt32 fd), ParentImg := some st.imgs.lastImagesDir }
  else
    { st.opts with ImagesDirFd := some (toInt32 fd) }

/-- The directory a round opens, given the descriptor the file system answered. -/
def roundDir (st : LoopState) (fd : Nat) : Dir :=
  ⟨getPath st.imgs.dir st.imgs.opened.length, fd⟩

/-- The ways through one round of the loop body: where it stops and what it has called. -/
inductive Step (st st1 : LoopState) (x : Option Exit) : Prop
  | startFail (e : Error)
      (ht : st1.trace = st.trace ++ [Event.StartIter (some e)])
      (hx : x = some (Exit.ret e))
  | openFail (e : Error)
      (ht : st1.trace = st.trace ++ [Event.StartIter none, Event.openNextDir (Res.err e)])
      (hx : x = some (Exit.ret e))
  | dumpFail (fd : Nat) (e : Error)
      (ht : st1.trace = st.trace ++ [Event.StartIter none,
        Event.openNextDir (Res.ok (roundDir st fd)),
        Event.PreDump (roundOpts st fd) (some e), Event.Close (roundDir st fd)])
      (hx : x = some (Exit.ret e))
  | stopFail (fd : Nat) (e : Error)
      (ht : st1.trace = st.trace ++ [Event.StartIter none,
        Event.openNextDir (Res.ok (roundDir st fd)),
        Event.PreDump (roundOpts st fd) none, Event.Close (roundDir st fd),
        Event.StopIter (some e)])
      (hx : x = some (Exit.ret e))
  | decodeFail (fd : Nat) (e : Error)
      (ht : st1.trace = st.trace ++ [Event.StartIter none,
        Event.openNextDir (Res.ok (roundDir st fd)),
        Event.PreDump (roundOpts st fd) none, Event.Close (roundDir st fd),
        Event.StopIter none,
        Event.Decode (joinPath (roundDir st fd).Name "stats-dump") (Res.err e)])
      (hx : x = some (Exit.ret e))
  | panic (fd : Nat) (img : CriuImage)
      (ht : st1.trace = st.trace ++ [Event.StartIter none,
        Event.openNextDir (Res.ok (roundDir st fd)),
        Event.PreDump (roundOpts st fd) none, Event.Close (roundDir st fd),
        Event.StopIter none,
        Event.Decode (joinPath (roundDir st fd).Name "stats-dump") (Res.ok img)])
      (hx : x = some Exit.panic)
  | decided (fd : Nat) (img : CriuImage) (s : Option DumpStatsEntry) (b : Bool)
      (hb : b = isLastIter (toInt64 (st.iter + 1)) s st.prevStats)
      (ht : st1.trace = st.trace ++ [Event.StartIter none,
        Event.openNextDir (Res.ok (roundDir st fd)),
        Event.PreDump (roundOpts st fd) none, Event.Close (roundDir st fd),
        Event.StopIter none,
        Event.Decode (joinPath (roundDir st fd).Name "stats-dump") (Res.ok img),
        Event.isLastIter (toInt64 (st.iter + 1)) s st.prevStats b])
      (himgs : st1.imgs.opened = st.imgs.opened ++ [(roundDir st fd).Name])
      (hopts : st1.opts = roundOpts st fd)
      (hiter : st1.iter = toInt64 (st.iter + 1))
      (hprev : b = false → st1.prevStats = s)
      (hx : x = if b then some Exit.brk else none)

/-- The property `Q` of every call of `l`, given `T` and the earlier calls of `l`. -/
def PrefixFrom (Q : List Event → Event → Prop) : List Event → List Event → Prop
  | _, [] => True
  | T, e :: l => Q T e ∧ PrefixFrom Q (T ++ [e]) l

/-- Every way a call of `Migrate` can go: its outcome and its trace. -/
inductive Shape : Run → Prop
  | prepareFail (e : Error) : Shape ⟨Outcome.ret (some e), [Event.Prepare (some e)]⟩
  | imagesFail (e : Error) :
      Shape ⟨Outcome.ret (some e),
        [Event.Prepare none, Event.preparePhaulImages (some e), Event.Cleanup]⟩
  | startFail (n : Nat) (T : List Event) (e : Error) (hT : Rounds n T) (hn : n < 8) :
      Shape ⟨Outcome.ret (some e), T ++ [Event.StartIter (some e), Event.Cleanup]⟩
  | openFail (n : Nat) (T : List Event) (e : Error) (hT : Rounds n T) (hn : n < 8) :
      Shape ⟨Outcome.ret (some e),
        T ++ [Event.StartIter none, Event.openNextDir (Res.err e), Event.Cleanup]⟩
  | dumpFail (n : Nat) (T : List Event) (d : Dir) (o : CriuOpts) (e : Error)
      (hT : Rounds n T) (hn : n < 8) :
      Shape ⟨Outcome.ret (some e),
        T ++ [Event.StartIter none, Event.openNextDir (Res.ok d), Event.PreDump o (some e),
          Event.Close d, Event.Cleanup]⟩
  | stopFail (n : Nat) (T : List Event) (d : Dir) (o : CriuOpts) (e : Error)
      (hT : Rounds n T) (hn : n < 8) :
      Shape ⟨Outcome.ret (some e),
        T ++ [Event.StartIter none, Event.openNextDir (Res.ok d), Event.PreDump o none,
          Event.Close d, Event.StopIter (some e), Event.Cleanup]⟩
  | decodeFail (n : Nat) (T : List Event) (d : Dir) (o : CriuOpts) (path : String) (e : Error)
      (hT : Rounds n T) (hn : n < 8) :
      Shape ⟨Outcome.ret (some e),
        T ++ [Event.StartIter none, Event.openNextDir (Res.ok d), Event.PreDump o none,
          Event.Close d, Event.StopIter none, Event.Decode path (Res.err e), Event.Cleanup]⟩
  | panic (n : Nat) (T : List Event) (d : Dir) (o : CriuOpts) (path : String) (img : CriuImage)
      (hT : Rounds n T) (hn : n < 8) :
      Shape ⟨Outcome.panic,
        T ++ [Event.StartIter none, Event.openNextDir (Res.ok d), Event.PreDump o none,
          Event.Close d, Event.StopIter none, Event.Decode path (Res.ok img), Event.Cleanup]⟩
  | finalStartFail (n : Nat) (T : List Event) (d : Dir) (o : CriuOpts) (path : String)
      (img : CriuImage) (i : Int) (s q : Option DumpStatsEntry) (e : Error)
      (hT : Rounds n T) (hn : n < 8) :
      Shape ⟨Outcome.ret (some e),
        T ++ [Event.StartIter none, Event.openNextDir (Res.ok d), Event.PreDump o none,
          Event.Close d, Event.StopIter none, Event.Decode path (Res.ok img),
          Event.isLastIter i s q true, Event.StartIter (some e), Event.Cleanup]⟩
  | final (n : Nat) (T : List Event) (d : Dir) (o : CriuOpts) (path : String)
      (img : CriuImage) (i : Int) (s q : Option DumpStatsEntry) (rd rs res : Option Error)
      (hT : Rounds n T) (hn : n < 8)
      (hfail : ∀ e, rd = some e → res = some e) (hok : rd = none → res = rs) :
      Shape ⟨Outcome.ret res,
        T ++ [Event.StartIter none, Event.openNextDir (Res.ok d), Event.PreDump o none,
          Event.Close d, Event.StopIter none, Event.Decode path (Res.ok img),
          Event.isLastIter i s q true, Event.StartIter none,
          Event.DumpCopyRestore d.Name rd, Event.StopIter rs, Event.Cleanup]⟩

/-- The positions of a list: `Splits tpre ev post acc l` says that `ev` is a call of `l`
with `post` after it and, before it, `tpre`, which is `acc` and then the calls of `l`
before `ev`. -/
def Splits (tpre : List Event) (ev : Event) (post : List Event) :
    List Event → List Event → Prop
  | _, [] => False
  | acc, a :: l => (tpre = acc ∧ ev = a ∧ post = l) ∨ Splits tpre ev post (acc ++ [a]) l

/-- Where a call of a trace of completed rounds lies: among the two preparation calls,
or in one of the rounds.  `block` is that group of calls, `T0` the calls before it and
`rest` the calls after it. -/
def Located (pre : List Event) (ev : Event) (post : List Event) : Prop :=
  ∃ T0 block rest rpre rpost,
    pre = T0 ++ rpre ∧ post = rpost ++ rest ∧ block = rpre ++ ev :: rpost ∧
      (block = [Event.Prepare none, Event.preparePhaulImages none] ∨
        ∃ d o path img i s q, block = fullRound d o path img i s q)

/-! ## Example runs -/

/-- A scripted behaviour of the collaborators: the pages written that the statistics of
rounds 1, 2, ... report (zero beyond the list), the answers of the successive
`StartIter` and `StopIter` calls (nil beyond the lists) and the answer of
`DumpCopyRestore`.  Everything else succeeds. -/
structure Script where
  pages : List Nat
  startIter : List (Option Error)
  stopIter : List (Option Error)
  dumpCopyRestore : Option Error

/-- The collaborators that follow a script. -/
def Script.env (s : Script) : Env where
  Prepare := none
  preparePhaulImages := none
  StartIter := fun tr => s.startIter.getD (tr.countP Event.isStartIter) none
  openDir := fun tr _ => Res.ok (3 + tr.countP Event.isOpened)
  PreDump := fun _ _ => none
  StopIter := fun tr => s.stopIter.getD (tr.countP Event.isStopIter) none
  Decode := fun tr _ =>
    Res.ok ⟨[Message.stats (some ⟨some (s.pages.getD (policyStats tr).length 0)⟩)]⟩
  DumpCopyRestore := fun _ _ _ => s.dumpCopyRestore

/-- A configuration for the examples. -/
def cfg0 : Config := ⟨1234, 5, "/tmp/w"⟩

/-- Eight rounds of `2 ^ 63` pages each: the growth wraps to `-2 ^ 63`, then is zero. -/
def envEight : Env := Script.env ⟨List.replicate 8 (2 ^ 63), [], [], none⟩

/-- One round of 10 pages; in the final round both `DumpCopyRestore` and `StopIter` fail. -/
def envBoth : Env := Script.env ⟨[10], [], [none, some ⟨"stop"⟩], some ⟨"finalize"⟩⟩

/-- One round of 100 pages, everything succeeds. -/
def envGrow : Env := Script.env ⟨[100], [], [], none⟩

/-- A first round of `2 ^ 63` pages, a second round of 10 pages, everything succeeds. -/
def envHuge : Env := Script.env ⟨[2 ^ 63, 10], [], [], none⟩

/-- The `StopIter` of round 1 fails. -/
def envStop : Env := Script.env ⟨[100], [], [some ⟨"stop"⟩], none⟩

/-- Two rounds of `2 ^ 63` pages, then the `StartIter` of round 3 fails. -/
def envPeer : Env := Script.env ⟨[2 ^ 63, 2 ^ 63], [none, none, some ⟨"peer"⟩], [], none⟩

/-- The run of `envBoth` on `cfg0`. -/
def runBoth : Run where
  outcome := Outcome.ret (some ⟨"finalize"⟩)
  trace :=
    [ Event.Prepare none,
      Event.preparePhaulImages none,
      Event.StartIter none,
      Event.openNextDir (Res.ok ⟨"/tmp/w/0", 3⟩),
      Event.PreDump ⟨1234, 4, "pre-dump.log", 5, some 3, none⟩ none,
      Event.Close ⟨"/tmp/w/0", 3⟩,
      Event.StopIter none,
      Event.Decode "/tmp/w/0/stats-dump" (Res.ok ⟨[Message.stats (some ⟨some 10⟩)]⟩),
      Event.isLastIter 1 (some ⟨some 10⟩) (some ⟨none⟩) true,
      Event.StartIter none,
      Event.DumpCopyRestore "/tmp/w/0" (some ⟨"finalize"⟩),
      Event.StopIter (some ⟨"stop"⟩),
      Event.Cleanup ]

/-- The run of `envGrow` on `cfg0`. -/
def runGrow : Run where
  outcome := Outcome.ret none
  trace :=
    [ Event.Prepare none,
      Event.preparePhaulImages none,
      Event.StartIter none,
      Event.openNextDir (Res.ok ⟨"/tmp/w/0", 3⟩),
      Event.PreDump ⟨1234, 4, "pre-dump.log", 5, some 3, none⟩ none,
      Event.Close ⟨"/tmp/w/0", 3⟩,
      Event.StopIter none,
      Event.Decode "/tmp/w/0/stats-dump" (Res.ok ⟨[Message.stats (some ⟨some 100⟩)]⟩),
      Event.isLastIter 1 (some ⟨some 100⟩) (some ⟨none⟩) true,
      Event.StartIter none,
      Event.DumpCopyRestore "/tmp/w/0" none,
      Event.StopIter none,
      Event.Cleanup ]

/-- The run of `envHuge` on `cfg0`. -/
def runHuge : Run where
  outcome := Outcome.ret none
  trace :=
    [ Event.Prepare none,
      Event.preparePhaulImages none,
      Event.StartIter none,
      Event.openNextDir (Res.ok ⟨"/tmp/w/0", 3⟩),
      Event.PreDump ⟨1234, 4, "pre-dump.log", 5, some 3, none⟩ none,
      Event.Close ⟨"/tmp/w/0", 3⟩,
      Event.StopIter none,
      Event.Decode "/tmp/w/0/stats-dump" (Res.ok ⟨[Message.stats (some ⟨some
        9223372036854775808⟩)]⟩),
      Event.isLastIter 1 (some ⟨some 9223372036854775808⟩) (some ⟨none⟩) false,
      Event.StartIter none,
      Event.openNextDir (Res.ok ⟨"/tmp/w/1", 4⟩),
      Event.PreDump ⟨1234, 4, "pre-dump.log", 5, some 4, some "/tmp/w/0"⟩ none,
      Event.Close ⟨"/tmp/w/1", 4⟩,
      Event.StopIter none,
      Event.Decode "/tmp/w/1/stats-dump" (Res.ok ⟨[Message.stats (some ⟨some 10⟩)]⟩),
      Event.isLastIter 2 (some ⟨some 10⟩) (some ⟨some 9223372036854775808⟩) true,
      Event.StartIter none,
      Event.DumpCopyRestore "/tmp/w/1" none,
      Event.StopIter none,
      Event.Cleanup ]

/-- The run of `envStop` on `cfg0`. -/
def runStop : Run where
  outcome := Outcome.ret (some ⟨"stop"⟩)
  trace :=
    [ Event.Prepare none,
      Event.preparePhaulImages none,
      Event.StartIter none,
      Event.openNextDir (Res.ok ⟨"/tmp/w/0", 3⟩),
      Event.PreDump ⟨1234, 4, "pre-dump.log", 5, some 3, none⟩ none,
      Event.Close ⟨"/tmp/w/0", 3⟩,
      Event.StopIter (some ⟨"stop"⟩),
      Event.Cleanup ]

/-- The run of `envPeer` on `cfg0`. -/
def runPeer : Run where
  outcome := Outcome.ret (some ⟨"peer"⟩)
  trace :=
    [ Event.Prepare none,
      Event.preparePhaulImages none,
      Event.StartIter none,
      Event.openNextDir (Res.ok ⟨"/tmp/w/0", 3⟩),
      Event.PreDump ⟨1234, 4, "pre-dump.log", 5, some 3, none⟩ none,
      Event.Close ⟨"/tmp/w/0", 3⟩,
      Event.StopIter none,
      Event.Decode "/tmp/w/0/stats-dump" (Res.ok ⟨[Message.stats (some ⟨some
        9223372036854775808⟩)]⟩),
      Event.isLastIter 1 (some ⟨some 9223372036854775808⟩) (some ⟨none⟩) false,
      Event.StartIter none,
      Event.openNextDir (Res.ok ⟨"/tmp/w/1", 4⟩),
      Event.PreDump ⟨1234, 4, "pre-dump.log", 5, some 4, some "/tmp/w/0"⟩ none,
      Event.Close ⟨"/tmp/w/1", 4⟩,
      Event.StopIter none,
      Event.Decode "/tmp/w/1/stats-dump" (Res.ok ⟨[Message.stats (some ⟨some
        9223372036854775808⟩)]⟩),
      Event.isLastIter 2 (some ⟨some 9223372036854775808⟩) (some ⟨some 9223372036854775808⟩)
        false,
      Event.StartIter (some ⟨"peer"⟩),
      Event.Cleanup ]

/-- Scenario A of the spec: the statistics report 200, 150, 100, 60 pages and everything
succeeds. -/
def envA : Env := Script.env ⟨[200, 150, 100, 60], [], [], none⟩

/-- Scenario B of the spec: the statistics report 10, 50, 90, ... pages and everything
succeeds. -/
def envB : Env := Script.env ⟨[10, 50, 90, 130, 170, 210, 250, 290], [], [], none⟩

/-- The `PreDump` of round 1 fails. -/
def envDump : Env := { Script.env ⟨[], [], [], none⟩ with PreDump := fun _ _ => some ⟨"dump"⟩ }

/-- The call of `criu.Prepare` fails. -/
def envPrep : Env := { Script.env ⟨[], [], [], none⟩ with Prepare := some ⟨"prepare"⟩ }

/-- The run of `envA` on `cfg0`. -/
def runA : Run where
  outcome := Outcome.ret none
  trace :=
    [ Event.Prepare none,
      Event.preparePhaulImages none,
      Event.StartIter none,
      Event.openNextDir (Res.ok ⟨"/tmp/w/0", 3⟩),
      Event.PreDump ⟨1234, 4, "pre-dump.log", 5, some 3, none⟩ none,
      Event.Close ⟨"/tmp/w/0", 3⟩,
      Event.StopIter none,
      Event.Decode "/tmp/w/0/stats-dump" (Res.ok ⟨[Message.stats (some ⟨some 200⟩)]⟩),
      Event.isLastIter 1 (some ⟨some 200⟩) (some ⟨none⟩) true,
      Event.StartIter none,
      Event.DumpCopyRestore "/tmp/w/0" none,
      Event.StopIter none,
      Event.Cleanup ]

/-- The run of `envB` on `cfg0`. -/
def runB : Run where
  outcome := Outcome.ret none
  trace :=
    [ Event.Prepare none,
      Event.preparePhaulImages none,
      Event.StartIter none,
      Event.openNextDir (Res.ok ⟨"/tmp/w/0", 3⟩),
      Event.PreDump ⟨1234, 4, "pre-dump.log", 5, some 3, none⟩ none,
      Event.Close ⟨"/tmp/w/0", 3⟩,
      Event.StopIter none,
      Event.Decode "/tmp/w/0/stats-dump" (Res.ok ⟨[Message.stats (some ⟨some 10⟩)]⟩),
      Event.isLastIter 1 (some ⟨some 10⟩) (some ⟨none⟩) true,
      Event.StartIter none,
      Event.DumpCopyRestore "/tmp/w/0" none,
      Event.StopIter none,
      Event.Cleanup ]

/-- The run of `envDump` on `cfg0`. -/
def runDump : Run where
  outcome := Outcome.ret (some ⟨"dump"⟩)
  trace :=
    [ Event.Prepare none,
      Event.preparePhaulImages none,
      Event.StartIter none,
      Event.openNextDir (Res.ok ⟨"/tmp/w/0", 3⟩),
      Event.PreDump ⟨1234, 4, "pre-dump.log", 5, some 3, none⟩ (some ⟨"dump"⟩),
      Event.Close ⟨"/tmp/w/0", 3⟩,
      Event.Cleanup ]

/-- The run of `envPrep` on `cfg0`. -/
def runPrep : Run where
  outcome := Outcome.ret (some ⟨"prepare"⟩)
  trace :=
    [ Event.Prepare (some ⟨"prepare"⟩) ]

/-! ## Machine integers and the policy -/

theorem toInt64_sub (a b : Int) : toInt64 (toInt64 a - toInt64 b) = toInt64 (a - b) := by
  unfold toInt64; omega

theorem toInt64_of_range (x : Int) (h1 : -2 ^ 63 ≤ x) (h2 : x < 2 ^ 63) : toInt64 x = x := by
  unfold toInt64; omega

theorem isLastIter_iff (iter : Int) (s p : Option DumpStatsEntry) :
    isLastIter iter s p = true ↔
      8 ≤ iter ∨ GetPagesWritten s < 64 ∨
        32 ≤ toInt64 ((GetPagesWritten s : Int) - (GetPagesWritten p : Int)) := by
  unfold isLastIter isLastIterLog
  simp only [maxIters, minPagesWritten, maxGrowDelta, toInt64_sub, ge_iff_le]
  by_cases h1 : (8 : Int) ≤ iter
  · simp [h1]
  · by_cases h2 : GetPagesWritten s < 64
    · simp [h1, h2]
    · by_cases h3 : (32 : Int) ≤ toInt64 ((GetPagesWritten s : Int) - (GetPagesWritten p : Int))
      · simp [h1, h2, h3]
      · simp [h1, h2, h3]

/-! ## Lists of calls -/

theorem PrefixAll.snoc {Q : List Event → Event → Prop} {T : List Event} {e : Event}
    (h : PrefixAll Q T) (he : Q T e) : PrefixAll Q (T ++ [e]) := by
  intro pre ev post hT
  rcases List.eq_nil_or_concat post with hp | ⟨post1, x, hp⟩
  · subst hp
    have := List.append_inj' hT rfl
    obtain ⟨h1, h2⟩ := this
    simp at h2
    subst h1; subst h2; exact he
  · subst hp
    have h3 : T ++ [e] = (pre ++ ev :: post1) ++ [x] := by simpa using hT
    have := List.append_inj' h3 rfl
    exact h pre ev post1 this.1

theorem openedDirs_append (a b : List Event) : openedDirs (a ++ b) = openedDirs a ++ openedDirs b := by
  induction a with
  | nil => rfl
  | cons x t ih =>
    cases x <;> simp [openedDirs, ih]
    rename_i r; cases r <;> simp [openedDirs, ih]

theorem policyStats_append (a b : List Event) :
    policyStats (a ++ b) = policyStats a ++ policyStats b := by
  induction a with
  | nil => rfl
  | cons x t ih => cases x <;> simp [policyStats, ih]

theorem getPath_ne_empty (w : String) (i : Nat) : getPath w i ≠ "" := by
  intro h
  have := congrArg String.length h
  simp [getPath] at this
  exact absurd this.1.2 (by decide)

/-! ## One round -/

theorem round_step (env : Env) (st : LoopState) :
    Step st (round env st).1 (round env st).2 := by
  unfold round
  simp only
  cases hs : env.StartIter st.trace with
  | some e => exact Step.startFail e (by simp) (by simp)
  | none =>
    simp only
    cases ho : env.openDir (st.trace ++ [Event.StartIter none])
        (getPath st.imgs.dir st.imgs.opened.length) with
    | err e => exact Step.openFail e (by simp [Images.openNextDir]) (by simp [Images.openNextDir])
    | ok fd =>
      simp only [Images.openNextDir]
      generalize hov : (ite (st.imgs.lastImagesDir ≠ "") _ _ : CriuOpts) = o
      have hopts : o = roundOpts st fd := hov.symm.trans rfl
      generalize hdv : (Dir.mk (getPath st.imgs.dir st.imgs.opened.length) fd) = d
      have hdir : d = roundDir st fd := hdv.symm.trans rfl
      subst hopts; subst hdir
      clear hov hdv
      cases hd : env.PreDump (st.trace ++ [Event.StartIter none] ++
          [Event.openNextDir (Res.ok (roundDir st fd))]) (roundOpts st fd) with
      | some e => exact Step.dumpFail fd e (by simp) (by simp)
      | none =>
        simp only
        cases hstop : env.StopIter (st.trace ++ [Event.StartIter none] ++
            [Event.openNextDir (Res.ok (roundDir st fd))] ++
            [Event.PreDump (roundOpts st fd) none, Event.Close (roundDir st fd)]) with
        | some e => exact Step.stopFail fd e (by simp) (by simp)
        | none =>
          simp only
          cases hdec : env.Decode (st.trace ++ [Event.StartIter none] ++
              [Event.openNextDir (Res.ok (roundDir st fd))] ++
              [Event.PreDump (roundOpts st fd) none, Event.Close (roundDir st fd)] ++
              [Event.StopIter none])
              (joinPath (getPath st.imgs.dir st.imgs.opened.length) "stats-dump") with
          | err e => exact Step.decodeFail fd e (by simp [roundDir]) (by simp)
          | ok img =>
            simp only
            split
            · exact Step.panic fd img (by simp [roundDir]) (by simp)
            · exact Step.panic fd img (by simp [roundDir]) (by simp)
            · rename_i s l hl
              split
              · rename_i hb
                exact Step.decided fd img s true (by simp [hb]) (by simp [hb, roundDir]) (by simp [roundDir])
                  (by simp) (by simp) (by simp) (by simp)
              · rename_i hb
                exact Step.decided fd img s false (by simp [hb]) (by simp [hb, roundDir]) (by simp [roundDir])
                  (by simp) (by simp) (by simp) (by simp)

theorem PrefixAll.nil (Q : List Event → Event → Prop) : PrefixAll Q [] := by
  intro pre ev post h
  simp at h

theorem PrefixAll.append {Q : List Event → Event → Prop} :
    ∀ (l T : List Event), PrefixAll Q T → PrefixFrom Q T l → PrefixAll Q (T ++ l)
  | [], T, h, _ => by simpa using h
  | e :: l, T, h, hl => by
    have h1 := PrefixAll.append l (T ++ [e]) (h.snoc hl.1) hl.2
    simpa using h1

theorem Rounds.counts {n : Nat} {T : List Event} (h : Rounds n T) :
    T.countP Event.isStartIter = n ∧ T.countP Event.isOpened = n ∧
    T.countP Event.isPreDump = n ∧ T.countP Event.isOkPreDump = n ∧
    T.countP Event.isStopIter = n := by
  induction h with
  | zero => simp [Event.isStartIter, Event.isOpened, Event.isPreDump, Event.isOkPreDump,
      Event.isStopIter]
  | succ d o path img i s q _ ih =>
    obtain ⟨h1, h2, h3, h4, h5⟩ := ih
    simp [fullRound, List.countP_append, h1, h2, h3, h4, h5, Event.isStartIter, Event.isOpened,
      Event.isPreDump, Event.isOkPreDump, Event.isStopIter]

theorem Rounds.quiet {n : Nat} {T : List Event} (h : Rounds n T) :
    ∀ x ∈ T, x.isBreak = false ∧ x.failure = none ∧ x.isDumpCopyRestore = false ∧
      x ≠ Event.Cleanup := by
  induction h with
  | zero => simp [Event.isBreak, Event.failure, Event.isDumpCopyRestore]
  | succ d o path img i s q _ ih =>
    intro x hx
    rcases List.mem_append.1 hx with hx | hx
    · exact ih x hx
    · simp [fullRound] at hx
      rcases hx with hx | hx | hx | hx | hx | hx | hx <;> subst hx <;>
        simp [Event.isBreak, Event.failure, Event.isDumpCopyRestore]

theorem Rounds.openedDirs_length {n : Nat} {T : List Event} (h : Rounds n T) :
    (openedDirs T).length = n := by
  induction h with
  | zero => simp [openedDirs]
  | succ d o path img i s q _ ih =>
    simp [fullRound, openedDirs_append, openedDirs, ih]

theorem Rounds.policyStats_length {n : Nat} {T : List Event} (h : Rounds n T) :
    (policyStats T).length = n := by
  induction h with
  | zero => simp [policyStats]
  | succ d o path img i s q _ ih =>
    simp [fullRound, policyStats_append, policyStats, ih]

theorem roundOpts_parent {n : Nat} {st : LoopState} (h : Inv n st) (fd : Nat) :
    (roundOpts st fd).ParentImg = ((openedDirs st.trace).getLast?).map Dir.Name ∧
      (roundOpts st fd).ImagesDirFd = some (toInt32 fd) := by
  obtain ⟨hR, hi, hn, hp, hd, hnm, hpar, hloc⟩ := h
  unfold roundOpts Images.lastImagesDir
  rw [hd]
  rcases List.eq_nil_or_concat (openedDirs st.trace) with h0 | ⟨ds, d, h0⟩
  · simp [h0, hpar h0]
  · have hne : d.Name ≠ "" := hnm d (by simp [h0])
    simp [h0, hne]

/-! ## The loop invariant -/

theorem iter_succ {n : Nat} (hn : n < 8) : toInt64 ((n : Int) + 1) = ((n + 1 : Nat) : Int) := by
  unfold toInt64; push_cast; omega

theorem round_cont {n : Nat} {st st1 : LoopState} (h : Inv n st) (hs : Step st st1 none) :
    Inv (n + 1) st1 := by
  have hpo := roundOpts_parent h
  obtain ⟨hR, hi, hn, hp, hd, hnm, hpar, hloc⟩ := h
  cases hs with
  | startFail e ht hx => simp at hx
  | openFail e ht hx => simp at hx
  | dumpFail fd e ht hx => simp at hx
  | stopFail fd e ht hx => simp at hx
  | decodeFail fd e ht hx => simp at hx
  | panic fd img ht hx => simp at hx
  | decided fd img s b hb ht himgs hopts hiter hprev hx =>
    cases b with
    | true => simp at hx
    | false =>
      have hcnt := hR.counts
      rw [hi, iter_succ hn] at hb ht hiter
      have hlt : n + 1 < 8 := by
        have := (isLastIter_iff ((n + 1 : Nat) : Int) s st.prevStats).not.1 (by rw [← hb]; simp)
        push_neg at this
        have h1 := this.1
        omega
      refine ⟨?_, hiter, hlt, ?_, ?_, ?_, ?_, ?_⟩
      · rw [ht]; exact Rounds.succ _ _ _ _ _ _ _ hR
      · rw [ht, hprev rfl]
        simp [prevPages, policyStats_append, policyStats]
      · rw [ht, himgs, hd]
        simp [openedDirs_append, openedDirs]
      · rw [ht]
        intro d hdm
        simp [openedDirs_append, openedDirs] at hdm
        rcases hdm with hdm | hdm
        · exact hnm d hdm
        · subst hdm; exact getPath_ne_empty _ _
      · rw [ht]
        intro h0
        simp [openedDirs_append, openedDirs] at h0
      · rw [ht]
        refine PrefixAll.append _ _ hloc ?_
        simp only [PrefixFrom, Local, and_true, true_and]
        refine ⟨⟨openedDirs st.trace, roundDir st fd, ?_, hpo fd |>.1, hpo fd |>.2, ?_⟩,
          ?_, hb, ?_, ?_⟩
        · simp [openedDirs_append, openedDirs]
        · simp [List.countP_append, hcnt.2.2.1, Event.isPreDump, hR.openedDirs_length]
        · simp [List.countP_append, hcnt.2.2.2.1, Event.isOkPreDump]
        · rw [hp]
          simp [prevPages, policyStats_append, policyStats]
        · simp [policyStats_append, policyStats, hR.policyStats_length]

theorem round_exit {env : Env} {cfg : Config} {n : Nat} {st st1 : LoopState} {x : Exit}
    (h : Inv n st) (hs : Step st st1 (some x)) :
    PrefixAll Local (afterLoop env cfg st1 x).trace ∧ Shape (afterLoop env cfg st1 x) := by
  have hpo := roundOpts_parent h
  obtain ⟨hR, hi, hn, hp, hd, hnm, hpar, hloc⟩ := h
  have hcnt := hR.counts
  have hpre : ∀ fd, Local (st.trace ++ [Event.StartIter none] ++
      [Event.openNextDir (Res.ok (roundDir st fd))]) (Event.PreDump (roundOpts st fd) none) := by
    intro fd
    exact ⟨openedDirs st.trace, roundDir st fd, by simp [openedDirs_append, openedDirs],
      (hpo fd).1, (hpo fd).2,
      by simp [List.countP_append, hcnt.2.2.1, Event.isPreDump, hR.openedDirs_length]⟩
  cases hs with
  | startFail e ht hx =>
    cases hx
    simp only [afterLoop, ht, List.append_assoc, List.singleton_append]
    exact ⟨PrefixAll.append _ _ hloc (by simp [PrefixFrom, Local]), Shape.startFail n _ e hR hn⟩
  | openFail e ht hx =>
    cases hx
    simp only [afterLoop, ht, List.append_assoc, List.cons_append, List.nil_append]
    exact ⟨PrefixAll.append _ _ hloc (by simp [PrefixFrom, Local]), Shape.openFail n _ e hR hn⟩
  | dumpFail fd e ht hx =>
    cases hx
    simp only [afterLoop, ht, List.append_assoc, List.cons_append, List.nil_append]
    refine ⟨PrefixAll.append _ _ hloc ?_, Shape.dumpFail n _ _ _ e hR hn⟩
    simp only [PrefixFrom, Local, and_true, true_and]
    exact hpre fd
  | stopFail fd e ht hx =>
    cases hx
    simp only [afterLoop, ht, List.append_assoc, List.cons_append, List.nil_append]
    refine ⟨PrefixAll.append _ _ hloc ?_, Shape.stopFail n _ _ _ e hR hn⟩
    simp only [PrefixFrom, Local, and_true, true_and]
    exact hpre fd
  | decodeFail fd e ht hx =>
    cases hx
    simp only [afterLoop, ht, List.append_assoc, List.cons_append, List.nil_append]
    refine ⟨PrefixAll.append _ _ hloc ?_, Shape.decodeFail n _ _ _ _ e hR hn⟩
    simp only [PrefixFrom, Local, and_true, true_and]
    exact hpre fd
  | panic fd img ht hx =>
    cases hx
    simp only [afterLoop, ht, List.append_assoc, List.cons_append, List.nil_append]
    refine ⟨PrefixAll.append _ _ hloc ?_, Shape.panic n _ _ _ _ img hR hn⟩
    simp only [PrefixFrom, Local, and_true, true_and]
    exact hpre fd
  | decided fd img s b hb ht himgs hopts hiter hprev hx =>
    cases b with
    | false => simp at hx
    | true =>
      simp at hx
      subst hx
      rw [hi, iter_succ hn] at hb ht
      have hlast : st1.imgs.lastImagesDir = (roundDir st fd).Name := by
        simp [Images.lastImagesDir, himgs]
      have hpol : Local (st.trace ++ [Event.StartIter none] ++
          [Event.openNextDir (Res.ok (roundDir st fd))] ++
          [Event.PreDump (roundOpts st fd) none] ++ [Event.Close (roundDir st fd)] ++
          [Event.StopIter none] ++
          [Event.Decode (joinPath (roundDir st fd).Name "stats-dump") (Res.ok img)])
          (Event.isLastIter ((n + 1 : Nat) : Int) s st.prevStats true) := by
        refine ⟨?_, hb, ?_, ?_⟩
        · simp [List.countP_append, hcnt.2.2.2.1, Event.isOkPreDump]
        · rw [hp]
          simp [prevPages, policyStats_append, policyStats]
        · simp [policyStats_append, policyStats, hR.policyStats_length]
      simp only [afterLoop, finalPhase, hlast]
      cases hf : env.StartIter st1.trace with
      | some e =>
        simp only [ht, List.append_assoc, List.cons_append, List.nil_append]
        refine ⟨PrefixAll.append _ _ hloc ?_, Shape.finalStartFail n _ _ _ _ img _ s _ e hR hn⟩
        simp only [PrefixFrom, Local, and_true, true_and]
        exact ⟨hpre fd, hpol⟩
      | none =>
        simp only
        generalize hrd : env.DumpCopyRestore _ cfg _ = rd
        generalize hrs : env.StopIter _ = rs
        have hshape : ∀ res : Option Error, (∀ e, rd = some e → res = some e) →
            (rd = none → res = rs) →
            PrefixAll Local (st1.trace ++ [Event.StartIter none] ++
              [Event.DumpCopyRestore (roundDir st fd).Name rd] ++ [Event.StopIter rs] ++
              [Event.Cleanup]) ∧
            Shape ⟨Outcome.ret res, st1.trace ++ [Event.StartIter none] ++
              [Event.DumpCopyRestore (roundDir st fd).Name rd] ++ [Event.StopIter rs] ++
              [Event.Cleanup]⟩ := by
          intro res h1 h2
          simp only [ht, List.append_assoc, List.cons_append, List.nil_append]
          refine ⟨PrefixAll.append _ _ hloc ?_,
            Shape.final n _ _ _ _ img _ s _ rd rs res hR hn h1 h2⟩
          simp only [PrefixFrom, Local, and_true, true_and]
          refine ⟨hpre fd, hpol, openedDirs st.trace, roundDir st fd, ?_, rfl⟩
          simp [openedDirs_append, openedDirs]
        cases rd with
        | none => exact hshape rs (by simp) (by simp)
        | some e => exact hshape (some e) (by simp) (by simp)

theorem loop_shape (env : Env) (cfg : Config) :
    ∀ (fuel n : Nat) (st : LoopState), Inv n st → 8 ≤ fuel + n →
      ∃ st1 x, loop env fuel st = some (st1, x) ∧
        PrefixAll Local (afterLoop env cfg st1 x).trace ∧ Shape (afterLoop env cfg st1 x)
  | 0, n, st, h, hf => by
    have := h.2.2.1
    omega
  | fuel + 1, n, st, h, hf => by
    have hs := round_step env st
    rcases hr : round env st with ⟨st1, x⟩
    rw [hr] at hs
    cases x with
    | some x =>
      exact ⟨st1, x, by simp [loop, hr], round_exit h hs⟩
    | none =>
      have h1 := round_cont h hs
      obtain ⟨st2, x, hl, hres⟩ := loop_shape env cfg fuel (n + 1) st1 h1 (by omega)
      exact ⟨st2, x, by simp [loop, hr, hl], hres⟩

theorem initState_inv (cfg : Config) : Inv 0 (initState cfg) := by
  refine ⟨Rounds.zero, rfl, by norm_num, ?_, ?_, ?_, ?_, ?_⟩
  · simp [initState, prevPages, policyStats, GetPagesWritten]
  · simp [initState, openedDirs]
  · simp [initState, openedDirs]
  · simp [initState]
  · exact PrefixAll.append _ [] (PrefixAll.nil _) (by simp [PrefixFrom, Local])

theorem Migrate_shape (fuel : Nat) (env : Env) (cfg : Config) (hf : 8 ≤ fuel) :
    ∃ r, Migrate fuel env cfg = some r ∧ PrefixAll Local r.trace ∧ Shape r := by
  unfold Migrate
  cases hp : env.Prepare with
  | some e =>
    exact ⟨_, rfl, PrefixAll.append _ [] (PrefixAll.nil _) (by simp [PrefixFrom, Local]),
      Shape.prepareFail e⟩
  | none =>
    cases hi : env.preparePhaulImages with
    | some e =>
      exact ⟨_, rfl, PrefixAll.append _ [] (PrefixAll.nil _) (by simp [PrefixFrom, Local]),
        Shape.imagesFail e⟩
    | none =>
      obtain ⟨st1, x, hl, hres⟩ := loop_shape env cfg fuel 0 (initState cfg) (initState_inv cfg)
        (by omega)
      exact ⟨_, by simp [hl], hres⟩

/-! ## Positions in a trace -/

theorem split_tail {T tail pre post : List Event} {ev : Event}
    (h : T ++ tail = pre ++ ev :: post) (hev : ev ∉ T) :
    ∃ tpre, pre = T ++ tpre ∧ tail = tpre ++ ev :: post := by
  rcases List.append_eq_append_iff.1 h with ⟨a, h1, h2⟩ | ⟨c, h1, h2⟩
  · exact ⟨a, h1, h2⟩
  · cases c with
    | nil => exact ⟨[], by simpa using h1.symm, by simpa using h2.symm⟩
    | cons x c =>
      simp at h2
      exact absurd (by rw [h1, h2.1]; simp) hev

theorem loop_mono (env : Env) :
    ∀ (fuel k : Nat) (st : LoopState) (res : LoopState × Exit),
      loop env fuel st = some res → loop env (fuel + k) st = some res
  | 0, _, _, _, h => by simp [loop] at h
  | fuel + 1, k, st, res, h => by
    rw [show fuel + 1 + k = (fuel + k) + 1 by omega]
    unfold loop at h ⊢
    rcases hr : round env st with ⟨st1, x⟩
    rw [hr] at h
    cases x with
    | some x => simpa using h
    | none => exact loop_mono env fuel k st1 res h

theorem Migrate_fuel (fuel : Nat) (env : Env) (cfg : Config) (hf : 8 ≤ fuel) :
    Migrate fuel env cfg = Migrate 8 env cfg := by
  obtain ⟨k, rfl⟩ := Nat.exists_eq_add_of_le hf
  unfold Migrate
  cases env.Prepare with
  | some e => rfl
  | none =>
    cases env.preparePhaulImages with
    | some e => rfl
    | none =>
      obtain ⟨st1, x, hl, _⟩ := loop_shape env cfg 8 0 (initState cfg) (initState_inv cfg)
        (by omega)
      simp only [loop_mono env 8 k _ _ hl, hl]

theorem in_tail {n : Nat} {T tail pre post : List Event} {ev : Event} (hR : Rounds n T)
    (h : T ++ tail = pre ++ ev :: post)
    (hm : ev.isBreak = true ∨ ev.failure ≠ none ∨ ev.isDumpCopyRestore = true ∨
      ev = Event.Cleanup) :
    ∃ tpre, pre = T ++ tpre ∧ tail = tpre ++ ev :: post := by
  refine split_tail h (fun hmem => ?_)
  have hq := hR.quiet ev hmem
  rcases hm with hm | hm | hm | hm
  · rw [hq.1] at hm; exact absurd hm (by decide)
  · exact hm hq.2.1
  · rw [hq.2.2.1] at hm; exact absurd hm (by decide)
  · exact hq.2.2.2 hm

theorem splits_of_eq (ev : Event) (post : List Event) :
    ∀ (t acc tail : List Event), tail = t ++ ev :: post → Splits (acc ++ t) ev post acc tail
  | [], acc, tail, h => by
    subst h
    simp [Splits]
  | a :: t, acc, tail, h => by
    subst h
    have := splits_of_eq ev post t (acc ++ [a]) (t ++ ev :: post) rfl
    simp only [List.cons_append, Splits]
    right
    simpa using this

theorem in_tail_splits {n : Nat} {T tail pre post : List Event} {ev : Event} (hR : Rounds n T)
    (h : T ++ tail = pre ++ ev :: post)
    (hm : ev.isBreak = true ∨ ev.failure ≠ none ∨ ev.isDumpCopyRestore = true ∨
      ev = Event.Cleanup) :
    ∃ tpre, pre = T ++ tpre ∧ Splits tpre ev post [] tail := by
  obtain ⟨tpre, h1, h2⟩ := in_tail hR h hm
  exact ⟨tpre, h1, by simpa using splits_of_eq ev post tpre [] tail h2⟩

theorem splits_short {pre post l : List Event} {ev : Event} (h : l = pre ++ ev :: post) :
    Splits pre ev post [] l := by
  simpa using splits_of_eq ev post pre [] l h

theorem after_break {r : Run} (hshape : Shape r) {pre post : List Event} {i : Int}
    {s p : Option DumpStatsEntry} (h : r.trace = pre ++ Event.isLastIter i s p true :: post) :
    (∀ x ∈ pre, x.isBreak = false ∧ x.isDumpCopyRestore = false) ∧
    ((∃ e, post = [Event.StartIter (some e), Event.Cleanup] ∧ r.outcome = Outcome.ret (some e)) ∨
      (∃ ds d rd rs, openedDirs pre = ds ++ [d] ∧
        post = [Event.StartIter none, Event.DumpCopyRestore d.Name rd, Event.StopIter rs,
          Event.Cleanup])) := by
  cases hshape with
  | prepareFail e => simpa [Splits] using splits_short h
  | imagesFail e => simpa [Splits] using splits_short h
  | finalStartFail n T d o path img i1 s1 q e hT hn =>
    obtain ⟨tpre, rfl, ht⟩ := in_tail_splits hT h (by simp [Event.isBreak])
    simp [Splits] at ht
    obtain ⟨rfl, -, rfl⟩ := ht
    refine ⟨?_, Or.inl ⟨e, rfl, rfl⟩⟩
    intro x hx
    rcases List.mem_append.1 hx with hx | hx
    · exact ⟨(hT.quiet x hx).1, (hT.quiet x hx).2.2.1⟩
    · simp at hx
      rcases hx with hx | hx | hx | hx | hx | hx <;> subst hx <;> exact ⟨rfl, rfl⟩
  | final n T d o path img i1 s1 q rd rs res hT hn hfail hok =>
    obtain ⟨tpre, rfl, ht⟩ := in_tail_splits hT h (by simp [Event.isBreak])
    simp [Splits] at ht
    obtain ⟨rfl, -, rfl⟩ := ht
    refine ⟨?_, Or.inr ⟨openedDirs T, d, rd, rs, ?_, rfl⟩⟩
    · intro x hx
      rcases List.mem_append.1 hx with hx | hx
      · exact ⟨(hT.quiet x hx).1, (hT.quiet x hx).2.2.1⟩
      · simp at hx
        rcases hx with hx | hx | hx | hx | hx | hx <;> subst hx <;> exact ⟨rfl, rfl⟩
    · simp [openedDirs_append, openedDirs]
  | _ =>
    obtain ⟨tpre, rfl, ht⟩ := in_tail_splits ‹Rounds _ _› h (by simp [Event.isBreak])
    simp [Splits] at ht

theorem finalShape_of_after {post : List Event} {pre : List Event} {out : Outcome}
    (h : (∃ e, post = [Event.StartIter (some e), Event.Cleanup] ∧ out = Outcome.ret (some e)) ∨
      (∃ ds d rd rs, openedDirs pre = ds ++ [d] ∧
        post = [Event.StartIter none, Event.DumpCopyRestore d.Name rd, Event.StopIter rs,
          Event.Cleanup])) :
    FinalShape post ∧ post.countP Event.isPreDump = 0 ∧ post.countP Event.isStartIter = 1 := by
  rcases h with ⟨e, rfl, -⟩ | ⟨ds, d, rd, rs, -, rfl⟩
  · exact ⟨Or.inl ⟨e, rfl⟩, by simp [Event.isPreDump], by simp [Event.isStartIter]⟩
  · exact ⟨Or.inr ⟨_, rd, rs, rfl⟩, by simp [Event.isPreDump], by simp [Event.isStartIter]⟩

theorem first_round_baseline {r : Run} (hloc : PrefixAll Local r.trace)
    {pre post : List Event} {s p : Option DumpStatsEntry} {b : Bool}
    (h : r.trace = pre ++ Event.isLastIter 1 s p b :: post) : prevPages pre = 0 := by
  have hl := (hloc pre _ post h).2.2.2
  have h0 : policyStats pre = [] := by
    apply List.eq_nil_of_length_eq_zero
    omega
  simp [prevPages, h0]

theorem failure_cases {ev : Event} {e : Error} (h : ev.failure = some e) :
    ev = Event.StartIter (some e) ∨ ev = Event.openNextDir (Res.err e) ∨
      (∃ o, ev = Event.PreDump o (some e)) ∨ ev = Event.StopIter (some e) ∨
      ∃ p, ev = Event.Decode p (Res.err e) := by
  cases ev with
  | StartIter r => cases r <;> simp_all [Event.failure]
  | openNextDir r => cases r <;> simp_all [Event.failure]
  | PreDump o r => cases r <;> simp_all [Event.failure]
  | StopIter r => cases r <;> simp_all [Event.failure]
  | Decode p r => cases r <;> simp_all [Event.failure]
  | _ => simp [Event.failure] at h

theorem after_failure {r : Run} (hshape : Shape r) {pre post : List Event} {ev : Event}
    {e : Error} (h : r.trace = pre ++ ev :: post) (hfail : ev.failure = some e)
    (hpre : ∀ x ∈ pre, x.isBreak = false) :
    ∃ n T tpre, Rounds n T ∧ pre = T ++ tpre ∧ r.outcome = Outcome.ret (some e) ∧
      ((post = [Event.Cleanup] ∧
        (tpre = [] ∧ ev = Event.StartIter (some e) ∨
         tpre = [Event.StartIter none] ∧ ev = Event.openNextDir (Res.err e) ∨
         (∃ d o, tpre = [Event.StartIter none, Event.openNextDir (Res.ok d),
            Event.PreDump o none, Event.Close d] ∧ ev = Event.StopIter (some e)) ∨
         (∃ d o path, tpre = [Event.StartIter none, Event.openNextDir (Res.ok d),
            Event.PreDump o none, Event.Close d, Event.StopIter none] ∧
            ev = Event.Decode path (Res.err e)))) ∨
       (∃ d o, tpre = [Event.StartIter none, Event.openNextDir (Res.ok d)] ∧
          ev = Event.PreDump o (some e) ∧ post = [Event.Close d, Event.Cleanup])) := by
  have hm : ev.isBreak = true ∨ ev.failure ≠ none ∨ ev.isDumpCopyRestore = true ∨
      ev = Event.Cleanup := Or.inr (Or.inl (by simp [hfail]))
  have hbrk : ∀ (i : Int) (s q : Option DumpStatsEntry),
      Event.isLastIter i s q true ∈ pre → False := by
    intro i s q hp
    have := hpre (Event.isLastIter i s q true) hp
    simp [Event.isBreak] at this
  rcases failure_cases hfail with rfl | rfl | ⟨o1, rfl⟩ | rfl | ⟨p1, rfl⟩ <;>
  cases hshape with
  | prepareFail e1 => simpa [Splits] using splits_short h
  | imagesFail e1 => simpa [Splits] using splits_short h
  | startFail n T e1 hT hn =>
    obtain ⟨tpre, rfl, ht⟩ := in_tail_splits hT h hm
    simp [Splits] at ht
    try (obtain ⟨rfl, rfl, rfl⟩ := ht; exact ⟨n, T, [], hT, rfl, rfl, by simp⟩)
  | openFail n T e1 hT hn =>
    obtain ⟨tpre, rfl, ht⟩ := in_tail_splits hT h hm
    simp [Splits] at ht
    try (obtain ⟨rfl, rfl, rfl⟩ := ht; exact ⟨n, T, _, hT, rfl, rfl, by simp⟩)
  | dumpFail n T d o e1 hT hn =>
    obtain ⟨tpre, rfl, ht⟩ := in_tail_splits hT h hm
    simp [Splits] at ht
    try (obtain ⟨rfl, ⟨rfl, rfl⟩, rfl⟩ := ht; exact ⟨n, T, _, hT, rfl, rfl, by simp⟩)
  | stopFail n T d o e1 hT hn =>
    obtain ⟨tpre, rfl, ht⟩ := in_tail_splits hT h hm
    simp [Splits] at ht
    try (obtain ⟨rfl, rfl, rfl⟩ := ht; exact ⟨n, T, _, hT, rfl, rfl, by simp⟩)
  | decodeFail n T d o path e1 hT hn =>
    obtain ⟨tpre, rfl, ht⟩ := in_tail_splits hT h hm
    simp [Splits] at ht
    try (obtain ⟨rfl, ⟨rfl, rfl⟩, rfl⟩ := ht; exact ⟨n, T, _, hT, rfl, rfl, by simp⟩)
  | panic n T d o path img hT hn =>
    obtain ⟨tpre, rfl, ht⟩ := in_tail_splits hT h hm
    simp [Splits] at ht
  | finalStartFail n T d o path img i s q e1 hT hn =>
    obtain ⟨tpre, rfl, ht⟩ := in_tail_splits hT h hm
    simp [Splits] at ht
    try (exact (hbrk i s q (by simp [ht.1])).elim)
  | final n T d o path img i s q rd rs res hT hn hfail hok =>
    obtain ⟨tpre, rfl, ht⟩ := in_tail_splits hT h hm
    simp [Splits] at ht
    try (exact (hbrk i s q (by simp [ht.1])).elim)

/-! ## The example runs, evaluated -/

theorem run_unique {fuel : Nat} {env : Env} {cfg : Config} {r run : Run}
    (h1 : Migrate fuel env cfg = some r) (h2 : Migrate fuel env cfg = some run) : r = run := by
  rw [h2] at h1
  exact (Option.some.inj h1).symm

theorem run_envBoth : Migrate 8 envBoth cfg0 = some runBoth := by decide

theorem run_envGrow : Migrate 8 envGrow cfg0 = some runGrow := by decide

theorem run_envHuge : Migrate 8 envHuge cfg0 = some runHuge := by decide

theorem run_envStop : Migrate 8 envStop cfg0 = some runStop := by decide

theorem run_envPeer : Migrate 8 envPeer cfg0 = some runPeer := by decide

/-! ## Peer calls, positions in completed rounds, the first round -/

theorem peerCalls_append (a b : List Event) : peerCalls (a ++ b) = peerCalls a ++ peerCalls b := by
  simp [peerCalls]

theorem Rounds.peer {n : Nat} {T : List Event} (h : Rounds n T) :
    List.Chain' peerNext (peerCalls T) ∧
      (∀ x ∈ (peerCalls T).getLast?, x = Event.StopIter none) ∧
      (∀ x ∈ (peerCalls T).head?, x = Event.StartIter none) := by
  induction h with
  | zero => simp [peerCalls, Event.isPeer, Event.isStartIter, Event.isStopIter]
  | succ d o path img i s q hT ih =>
    obtain ⟨h1, h2, h3⟩ := ih
    have hp : peerCalls (fullRound d o path img i s q) =
        [Event.StartIter none, Event.StopIter none] := by
      simp [peerCalls, fullRound, Event.isPeer, Event.isStartIter, Event.isStopIter]
    rw [peerCalls_append, hp]
    refine ⟨?_, ?_, ?_⟩
    · rw [List.chain'_append]
      refine ⟨h1, ?_, ?_⟩
      · simp [peerNext, Event.isStopIter]
      · intro x hx y hy
        simp at hy
        subst hy
        rw [h2 x hx]
        exact Or.inr ⟨rfl, rfl⟩
    · simp
    · intro x hx
      rcases hpc : peerCalls _ with _ | ⟨a, l⟩
      · rw [hpc] at hx; simp at hx; exact hx.symm
      · rw [hpc] at hx h3; simp at hx h3; rw [← hx]; exact h3

theorem peer_tail {n : Nat} {T tail : List Event} (hT : Rounds n T)
    (hc : List.Chain' peerNext (peerCalls tail))
    (hh : ∀ y ∈ (peerCalls tail).head?, y.isStartIter = true) :
    (∀ x ∈ (peerCalls (T ++ tail)).head?, x.isStartIter = true) ∧
      List.Chain' peerNext (peerCalls (T ++ tail)) := by
  obtain ⟨h1, h2, h3⟩ := hT.peer
  rw [peerCalls_append]
  refine ⟨?_, ?_⟩
  · intro x hx
    rcases hpc : peerCalls T with _ | ⟨a, l⟩
    · rw [hpc] at hx; simp at hx; exact hh x (by simpa using hx)
    · rw [hpc] at hx h3; simp at hx h3; rw [← hx, h3]; rfl
  · rw [List.chain'_append]
    refine ⟨h1, hc, ?_⟩
    intro x hx y hy
    rw [h2 x hx]
    exact Or.inr ⟨rfl, hh y hy⟩

theorem split_cases {T tail pre post : List Event} {ev : Event}
    (h : T ++ tail = pre ++ ev :: post) :
    (∃ post1, T = pre ++ ev :: post1 ∧ post = post1 ++ tail) ∨
    (∃ tpre, pre = T ++ tpre ∧ tail = tpre ++ ev :: post) := by
  rcases List.append_eq_append_iff.1 h with ⟨a, h1, h2⟩ | ⟨c, h1, h2⟩
  · exact Or.inr ⟨a, h1, h2⟩
  · cases c with
    | nil => exact Or.inr ⟨[], by simpa using h1.symm, by simpa using h2.symm⟩
    | cons x c =>
      simp at h2
      obtain ⟨rfl, rfl⟩ := h2
      exact Or.inl ⟨c, h1, rfl⟩

theorem Rounds.locate {n : Nat} {T : List Event} (h : Rounds n T) :
    ∀ pre ev post, T = pre ++ ev :: post → Located pre ev post := by
  induction h with
  | zero =>
    intro pre ev post hT
    exact ⟨[], _, [], pre, post, by simp, by simp, hT, Or.inl rfl⟩
  | succ d o path img i s q hT ih =>
    intro pre ev post h
    rcases split_cases h with ⟨post1, h1, h2⟩ | ⟨tpre, h1, h2⟩
    · obtain ⟨T0, block, rest, rpre, rpost, e1, e2, e3, e4⟩ := ih pre ev post1 h1
      exact ⟨T0, block, rest ++ fullRound d o path img i s q, rpre, rpost, e1,
        by rw [h2, e2]; simp, e3, e4⟩
    · exact ⟨_, _, [], tpre, post, h1, by simp, h2, Or.inr ⟨d, o, path, img, i, s, q, rfl⟩⟩

theorem locate_run {n : Nat} {T tail pre post : List Event} {ev : Event} (hT : Rounds n T)
    (h : T ++ tail = pre ++ ev :: post) :
    (∃ post1, Located pre ev post1 ∧ post = post1 ++ tail) ∨
    (∃ tpre, pre = T ++ tpre ∧ Splits tpre ev post [] tail) := by
  rcases split_cases h with ⟨post1, h1, h2⟩ | ⟨tpre, h1, h2⟩
  · exact Or.inl ⟨post1, hT.locate pre ev post1 h1, h2⟩
  · exact Or.inr ⟨tpre, h1, by simpa using splits_of_eq ev post tpre [] tail h2⟩

theorem located_start {pre post1 : List Event} (tail : List Event)
    (h : Located pre (Event.StartIter none) post1) : StopIterNext (post1 ++ tail) := by
  obtain ⟨T0, block, rest, rpre, rpost, -, e2, e3, e4⟩ := h
  rcases e4 with rfl | ⟨d, o, path, img, i, s, q, rfl⟩
  · have := splits_short e3
    simp [Splits] at this
  · have := splits_short e3
    simp [Splits, fullRound] at this
    obtain ⟨-, rfl⟩ := this
    refine ⟨[Event.openNextDir (Res.ok d), Event.PreDump o none, Event.Close d], none,
      Event.Decode path (Res.ok img) :: Event.isLastIter i s q false :: (rest ++ tail), ?_, ?_⟩
    · rw [e2]; simp
    · simp [Event.isPeer, Event.isStartIter, Event.isStopIter]

theorem Rounds.head {n : Nat} {T : List Event} (h : Rounds n T) :
    ∃ body, T = Event.Prepare none :: Event.preparePhaulImages none :: body := by
  induction h with
  | zero => exact ⟨[], rfl⟩
  | succ d o path img i s q _ ih =>
    obtain ⟨body, hb⟩ := ih
    exact ⟨body ++ fullRound d o path img i s q, by rw [hb]; simp⟩

theorem Rounds.counts_close {n : Nat} {T : List Event} (h : Rounds n T) :
    T.countP Event.isCleanup = 0 ∧ T.countP Event.isClose = n := by
  induction h with
  | zero => simp [Event.isCleanup, Event.isClose]
  | succ d o path img i s q _ ih =>
    simp [fullRound, List.countP_append, ih, Event.isCleanup, Event.isClose]

theorem loop_extends (env : Env) :
    ∀ (fuel : Nat) (st st1 : LoopState) (x : Exit), loop env fuel st = some (st1, x) →
      ∃ l, st1.trace = st.trace ++ l
  | 0, _, _, _, h => by simp [loop] at h
  | fuel + 1, st, st1, x, h => by
    have hs := round_step env st
    unfold loop at h
    rcases hr : round env st with ⟨st2, y⟩
    rw [hr] at h hs
    have hext : ∃ l, st2.trace = st.trace ++ l := by
      cases hs with
      | startFail e ht hx => exact ⟨_, ht⟩
      | openFail e ht hx => exact ⟨_, ht⟩
      | dumpFail fd e ht hx => exact ⟨_, ht⟩
      | stopFail fd e ht hx => exact ⟨_, ht⟩
      | decodeFail fd e ht hx => exact ⟨_, ht⟩
      | panic fd img ht hx => exact ⟨_, ht⟩
      | decided fd img s b hb ht himgs hopts hiter hprev hx => exact ⟨_, ht⟩
    cases y with
    | some y =>
      simp at h
      obtain ⟨rfl, rfl⟩ := h
      exact hext
    | none =>
      obtain ⟨l1, h1⟩ := hext
      obtain ⟨l2, h2⟩ := loop_extends env fuel st2 st1 x h
      exact ⟨l1 ++ l2, by rw [h2, h1]; simp⟩

theorem Migrate_head {fuel : Nat} {env : Env} {cfg : Config} {r : Run}
    (h : Migrate fuel env cfg = some r) : r.trace.head? = some (Event.Prepare env.Prepare) := by
  unfold Migrate at h
  cases hp : env.Prepare with
  | some e =>
    rw [hp] at h
    simp at h
    subst h
    rfl
  | none =>
    rw [hp] at h
    cases hi : env.preparePhaulImages with
    | some e =>
      rw [hi] at h
      simp at h
      subst h
      rfl
    | none =>
      rw [hi] at h
      simp only at h
      cases hl : loop env fuel (initState cfg) with
      | none => rw [hl] at h; simp at h
      | some res =>
        obtain ⟨st, x⟩ := res
        rw [hl] at h
        simp at h
        subst h
        obtain ⟨l, hl1⟩ := loop_extends env fuel _ _ _ hl
        cases x with
        | ret e => simp [afterLoop, hl1, initState]
        | panic => simp [afterLoop, hl1, initState]
        | brk =>
          simp only [afterLoop, finalPhase]
          split
          · simp [hl1, initState]
          · split <;> simp [hl1, initState]

theorem located_open {pre post1 : List Event} {d : Dir} (tail : List Event)
    (h : Located pre (Event.openNextDir (Res.ok d)) post1) :
    ∃ o res rest, post1 ++ tail = Event.PreDump o res :: Event.Close d :: rest := by
  obtain ⟨T0, block, rest, rpre, rpost, -, e2, e3, e4⟩ := h
  rcases e4 with rfl | ⟨d1, o, path, img, i, s, q, rfl⟩
  · have := splits_short e3
    simp [Splits] at this
  · have := splits_short e3
    simp [Splits, fullRound] at this
    obtain ⟨-, rfl, rfl⟩ := this
    exact ⟨o, none, _, by rw [e2]; simp; rfl⟩

theorem close_pre (T : List Event) (d : Dir) (o : CriuOpts) (res : Option Error) :
    ∃ pre1 o1 res1, T ++ [Event.StartIter none, Event.openNextDir (Res.ok d),
      Event.PreDump o res] = pre1 ++ [Event.openNextDir (Res.ok d), Event.PreDump o1 res1] :=
  ⟨T ++ [Event.StartIter none], o, res, by simp⟩

theorem located_close {pre post1 : List Event} {d : Dir}
    (h : Located pre (Event.Close d) post1) :
    ∃ pre1 o res, pre = pre1 ++ [Event.openNextDir (Res.ok d), Event.PreDump o res] := by
  obtain ⟨T0, block, rest, rpre, rpost, e1, -, e3, e4⟩ := h
  rcases e4 with rfl | ⟨d1, o, path, img, i, s, q, rfl⟩
  · have := splits_short e3
    simp [Splits] at this
  · have := splits_short e3
    simp [Splits, fullRound] at this
    obtain ⟨rfl, rfl, -⟩ := this
    rw [e1]
    exact close_pre _ _ _ _

theorem break_pre {r : Run} (hshape : Shape r) {pre post : List Event} {i : Int}
    {s p : Option DumpStatsEntry} (h : r.trace = pre ++ Event.isLastIter i s p true :: post) :
    ∃ n T d o path img, Rounds n T ∧
      pre = T ++ [Event.StartIter none, Event.openNextDir (Res.ok d), Event.PreDump o none,
        Event.Close d, Event.StopIter none, Event.Decode path (Res.ok img)] := by
  cases hshape with
  | prepareFail e => simpa [Splits] using splits_short h
  | imagesFail e => simpa [Splits] using splits_short h
  | finalStartFail n T d o path img i1 s1 q e hT hn =>
    obtain ⟨tpre, rfl, ht⟩ := in_tail_splits hT h (by simp [Event.isBreak])
    simp [Splits] at ht
    obtain ⟨rfl, -, -⟩ := ht
    exact ⟨n, T, d, o, path, img, hT, rfl⟩
  | final n T d o path img i1 s1 q rd rs res hT hn hfail hok =>
    obtain ⟨tpre, rfl, ht⟩ := in_tail_splits hT h (by simp [Event.isBreak])
    simp [Splits] at ht
    obtain ⟨rfl, -, -⟩ := ht
    exact ⟨n, T, d, o, path, img, hT, rfl⟩
  | _ =>
    obtain ⟨tpre, rfl, ht⟩ := in_tail_splits ‹Rounds _ _› h (by simp [Event.isBreak])
    simp [Splits] at ht

theorem isLastIter_first (s p : Option DumpStatsEntry) (hs : GetPagesWritten s < 2 ^ 63)
    (hp : GetPagesWritten p = 0) : isLastIter 1 s p = true := by
  rw [isLastIter_iff, hp]
  by_cases h : GetPagesWritten s < 64
  · exact Or.inr (Or.inl h)
  · refine Or.inr (Or.inr ?_)
    rw [toInt64_of_range _ (by omega) (by push_cast; omega)]
    push_cast
    omega

theorem first_round_stops {r : Run} (hshape : Shape r) (hloc : PrefixAll Local r.trace)
    {pre post : List Event} {s p : Option DumpStatsEntry} {b : Bool}
    (h : r.trace = pre ++ Event.isLastIter 1 s p b :: post)
    (hs : GetPagesWritten s < 2 ^ 63) :
    b = true ∧ GetPagesWritten p = 0 ∧ FinalShape post ∧ pre.countP Event.isPreDump = 1 ∧
      r.trace.countP Event.isPreDump = 1 := by
  have hl := hloc pre _ post h
  have hp0 : GetPagesWritten p = 0 := by rw [hl.2.2.1]; exact first_round_baseline hloc h
  have hb : b = true := by rw [hl.2.1]; exact isLastIter_first s p hs hp0
  subst hb
  have hfs := finalShape_of_after (after_break hshape h).2
  obtain ⟨n, T, d, o, path, img, hT, hpre⟩ := break_pre hshape h
  have hc := hT.counts
  have h1 := hl.1
  have hn : n = 0 := by
    rw [hpre] at h1
    simp [List.countP_append, hc.2.2.2.1, Event.isOkPreDump] at h1
    omega
  subst hn
  have hcp : pre.countP Event.isPreDump = 1 := by
    rw [hpre]
    simp [List.countP_append, hc.2.2.1, Event.isPreDump]
  refine ⟨rfl, hp0, hfs.1, hcp, ?_⟩
  rw [h, List.countP_append, hcp, List.countP_cons, hfs.2.1]
  simp [Event.isPreDump]

theorem isLastIterLog_eq (iter : Int) (s p : Option DumpStatsEntry) :
    isLastIterLog iter s p =
      if iter ≥ maxIters then (true, some LogLine.maxItersReached)
      else if GetPagesWritten s < minPagesWritten then
        (true, some (LogLine.tinyPreDump (toInt64 (GetPagesWritten s))))
      else if pagesDelta s p ≥ maxGrowDelta then (true, some (LogLine.growIter (pagesDelta s p)))
      else (false, none) := rfl

theorem run_envA : Migrate 8 envA cfg0 = some runA := by decide

theorem run_envB : Migrate 8 envB cfg0 = some runB := by decide

theorem run_envDump : Migrate 8 envDump cfg0 = some runDump := by decide

theorem run_envPrep : Migrate 8 envPrep cfg0 = some runPrep := by decide

theorem first_policy (l : List Event) (h : policyStats l ≠ []) :
    ∃ pre i s p b post, l = pre ++ Event.isLastIter i s p b :: post ∧ policyStats pre = [] := by
  induction l with
  | nil => exact absurd rfl h
  | cons x l ih =>
    by_cases hx : ∃ i s p b, x = Event.isLastIter i s p b
    · obtain ⟨i, s, p, b, rfl⟩ := hx
      exact ⟨[], i, s, p, b, l, rfl, rfl⟩
    · have hps : ∀ t, policyStats (x :: t) = policyStats t := by
        intro t
        cases x <;> first | rfl | exact absurd ⟨_, _, _, _, rfl⟩ hx
      obtain ⟨pre, i, s, p, b, post, h1, h2⟩ := ih (by rwa [hps] at h)
      exact ⟨x :: pre, i, s, p, b, post, by rw [h1]; rfl, by rw [hps]; exact h2⟩

theorem success_has_first_round {r : Run} (hshape : Shape r) (hloc : PrefixAll Local r.trace)
    (hout : r.outcome = Outcome.ret none) :
    ∃ pre s p b post, r.trace = pre ++ Event.isLastIter 1 s p b :: post := by
  have hne : policyStats r.trace ≠ [] := by
    cases hshape with
    | final n T d o path img i s q rd rs res hT hn hfail hok =>
      simp [policyStats_append, policyStats]
    | _ => simp at hout
  obtain ⟨pre, i, s, p, b, post, h1, h2⟩ := first_policy r.trace hne
  have hl := (hloc pre _ post h1).2.2.2
  rw [h2] at hl
  simp at hl
  subst hl
  exact ⟨pre, s, p, b, post, h1⟩

/-! ## The claims -/

/-- C1, as amended (the stop decision).  `isLastIter` answers true exactly when the
iteration ceiling is reached, or the pages written are below the floor, or the growth
computed in wrapping signed 64-bit arithmetic reaches `maxGrowDelta`; and whenever the
exact difference of the two counts fits in a signed 64-bit integer, that growth is the
exact difference, so the three rules hold as stated. -/
theorem C1_isLastIter_rules (iter : Int) (stats prevStats : Option DumpStatsEntry) :
    (isLastIter iter stats prevStats = true ↔
      iter ≥ maxIters ∨ GetPagesWritten stats < minPagesWritten ∨
        toInt64 ((GetPagesWritten stats : Int) - (GetPagesWritten prevStats : Int))
          ≥ maxGrowDelta) ∧
    (-2 ^ 63 ≤ (GetPagesWritten stats : Int) - (GetPagesWritten prevStats : Int) →
      (GetPagesWritten stats : Int) - (GetPagesWritten prevStats : Int) < 2 ^ 63 →
      (isLastIter iter stats prevStats = true ↔
        iter ≥ maxIters ∨ GetPagesWritten stats < minPagesWritten ∨
          (GetPagesWritten stats : Int) - (GetPagesWritten prevStats : Int)
            ≥ maxGrowDelta)) := by
  refine ⟨?_, fun h1 h2 => ?_⟩
  · simpa [maxIters, minPagesWritten, maxGrowDelta] using isLastIter_iff iter stats prevStats
  · have := isLastIter_iff iter stats prevStats
    rw [toInt64_of_range _ h1 h2] at this
    simpa [maxIters, minPagesWritten, maxGrowDelta] using this

/-- C1 witness: iteration 3 with 100 pages after 90 (growth 10): continue. -/
theorem C1_isLastIter_rules_witness :
    (isLastIter 3 (some ⟨some 100⟩) (some ⟨some 90⟩) = true ↔
      (3 : Int) ≥ maxIters ∨ GetPagesWritten (some ⟨some 100⟩) < minPagesWritten ∨
        (GetPagesWritten (some ⟨some 100⟩) : Int) - (GetPagesWritten (some ⟨some 90⟩) : Int)
          ≥ maxGrowDelta) :=
  (C1_isLastIter_rules 3 (some ⟨some 100⟩) (some ⟨some 90⟩)).2 (by decide) (by decide)

/-- C1 as stated fails: at iteration 1 with `2 ^ 63` pages written after 0, the third
rule holds (the difference is `2 ^ 63`, at least 32) and `isLastIter` answers false. -/
theorem C1_counterexample :
    ¬ (isLastIter 1 (some ⟨some (2 ^ 63)⟩) (some ⟨some 0⟩) = true ↔
      (1 : Int) ≥ maxIters ∨ GetPagesWritten (some ⟨some (2 ^ 63)⟩) < minPagesWritten ∨
        (GetPagesWritten (some ⟨some (2 ^ 63)⟩) : Int) - (GetPagesWritten (some ⟨some 0⟩) : Int)
          ≥ maxGrowDelta) := by
  decide

/-- C2 (termination and the bound of eight pre-dumps).  With fuel for eight rounds
`Migrate` finishes, more fuel changes nothing, at most `maxIters` pre-dumps were
attempted and at most `maxIters + 1` rounds started (the final one included), and every
evaluation of the policy received as iteration number the number of pre-dumps that had
succeeded before it. -/
theorem C2_loop_terminates (fuel : Nat) (env : Env) (cfg : Config) (hf : 8 ≤ fuel) :
    ∃ r, Migrate fuel env cfg = some r ∧ Migrate 8 env cfg = some r ∧
      (r.trace.countP Event.isPreDump : Int) ≤ maxIters ∧
      (r.trace.countP Event.isStartIter : Int) ≤ maxIters + 1 ∧
      ∀ pre i s p b post, r.trace = pre ++ Event.isLastIter i s p b :: post →
        i = (pre.countP Event.isOkPreDump : Int) := by
  obtain ⟨r, hr, hloc, hshape⟩ := Migrate_shape fuel env cfg hf
  refine ⟨r, hr, by rw [← Migrate_fuel fuel env cfg hf]; exact hr, ?_, ?_, ?_⟩
  · unfold maxIters
    cases hshape <;> simp [List.countP_append, Event.isPreDump] <;>
      (have hc := (Rounds.counts ‹Rounds _ _›).2.2.1; omega)
  · unfold maxIters
    cases hshape <;> simp [List.countP_append, Event.isStartIter] <;>
      (have hc := (Rounds.counts ‹Rounds _ _›).1; omega)
  · intro pre i s p b post h
    exact (hloc pre _ post h).1

/-- C2 witness: eight rounds of `2 ^ 63` pages each reach the ceiling: eight pre-dumps. -/
theorem C2_loop_terminates_witness :
    8 ≤ 8 ∧ ∃ r, Migrate 8 envEight cfg0 = some r ∧ r.trace.countP Event.isPreDump = 8 ∧
      (r.trace.countP Event.isPreDump : Int) ≤ maxIters := by
  obtain ⟨r, hr, -, hle, -, -⟩ := C2_loop_terminates 8 envEight cfg0 (le_refl 8)
  have h8 : (Migrate 8 envEight cfg0).map (fun r => r.trace.countP Event.isPreDump) = some 8 := by
    decide
  rw [hr] at h8
  exact ⟨le_refl 8, r, hr, Option.some.inj h8, hle⟩

/-- C3 (error precedence of the final round).  Whenever `DumpCopyRestore` was called,
`StopIter` is the one call that follows it before the clean-up, and `Migrate` returns the
error of `DumpCopyRestore` if it failed, whatever `StopIter` answered, and otherwise what
`StopIter` answered; `Migrate` returns nil only after a final round in which the last
`StartIter`, `DumpCopyRestore` and `StopIter` all succeeded. -/
theorem C3_final_error_precedence (fuel : Nat) (env : Env) (cfg : Config) (hf : 8 ≤ fuel) :
    ∃ r, Migrate fuel env cfg = some r ∧
      (∀ pre parent rd post, r.trace = pre ++ Event.DumpCopyRestore parent rd :: post →
        ∃ rs, post = [Event.StopIter rs, Event.Cleanup] ∧
          (∀ e, rd = some e → r.outcome = Outcome.ret (some e)) ∧
          (rd = none → r.outcome = Outcome.ret rs)) ∧
      (r.outcome = Outcome.ret none →
        ∃ pre parent, r.trace = pre ++ [Event.StartIter none,
          Event.DumpCopyRestore parent none, Event.StopIter none, Event.Cleanup]) := by
  obtain ⟨r, hr, hloc, hshape⟩ := Migrate_shape fuel env cfg hf
  refine ⟨r, hr, ?_, ?_⟩
  · intro pre parent rd post h
    cases hshape with
    | prepareFail e => simpa [Splits] using splits_short h
    | imagesFail e => simpa [Splits] using splits_short h
    | final n T d o path img i s q rd1 rs res hT hn hfail hok =>
      obtain ⟨tpre, rfl, ht⟩ := in_tail_splits hT h (by simp [Event.isDumpCopyRestore])
      simp [Splits] at ht
      obtain ⟨-, ⟨-, rfl⟩, rfl⟩ := ht
      refine ⟨rs, rfl, fun e he => ?_, fun he => ?_⟩
      · rw [hfail e he]
      · rw [hok he]
    | _ =>
      obtain ⟨tpre, rfl, ht⟩ := in_tail_splits ‹Rounds _ _› h
        (by simp [Event.isDumpCopyRestore])
      simp [Splits] at ht
  · intro hout
    cases hshape with
    | final n T d o path img i s q rd rs res hT hn hfail hok =>
      simp at hout
      subst hout
      cases rd with
      | some e => simpa using hfail e rfl
      | none =>
        have := hok rfl
        subst this
        exact ⟨_, d.Name, by
          show T ++ _ = (T ++ [Event.StartIter none, Event.openNextDir (Res.ok d),
            Event.PreDump o none, Event.Close d, Event.StopIter none,
            Event.Decode path (Res.ok img), Event.isLastIter i s q true]) ++ _
          simp⟩
    | _ => simp at hout

/-- C3 witness: in the run of `envBoth` the final `DumpCopyRestore` and `StopIter` both
fail, and `Migrate` returns the error of `DumpCopyRestore`. -/
theorem C3_final_error_precedence_witness :
    8 ≤ 8 ∧ Migrate 8 envBoth cfg0 = some runBoth ∧
      runBoth.trace = runBoth.trace.take 10 ++
        Event.DumpCopyRestore "/tmp/w/0" (some ⟨"finalize"⟩) ::
          [Event.StopIter (some ⟨"stop"⟩), Event.Cleanup] ∧
      runBoth.outcome = Outcome.ret (some ⟨"finalize"⟩) := by
  obtain ⟨r, hr, h1, -⟩ := C3_final_error_precedence 8 envBoth cfg0 (le_refl 8)
  cases run_unique hr run_envBoth
  have hsplit : runBoth.trace = runBoth.trace.take 10 ++
      Event.DumpCopyRestore "/tmp/w/0" (some ⟨"finalize"⟩) ::
        [Event.StopIter (some ⟨"stop"⟩), Event.Cleanup] := by decide
  obtain ⟨rs, -, h2, -⟩ := h1 _ _ _ _ hsplit
  exact ⟨le_refl 8, run_envBoth, hsplit, h2 _ rfl⟩

/-- C4 (the calls of the final round).  After the policy has answered true, either the
last `StartIter` fails, nothing but the clean-up follows and `Migrate` returns that
error; or it succeeds and exactly `DumpCopyRestore`, with the name of the most recently
opened directory as parent, then `StopIter`, then the clean-up follow, whatever
`DumpCopyRestore` answered. -/
theorem C4_final_round_calls (fuel : Nat) (env : Env) (cfg : Config) (hf : 8 ≤ fuel) :
    ∃ r, Migrate fuel env cfg = some r ∧
      ∀ pre i s p post, r.trace = pre ++ Event.isLastIter i s p true :: post →
        (∃ e, post = [Event.StartIter (some e), Event.Cleanup] ∧
          r.outcome = Outcome.ret (some e)) ∨
        (∃ ds d rd rs, openedDirs pre = ds ++ [d] ∧
          post = [Event.StartIter none, Event.DumpCopyRestore d.Name rd, Event.StopIter rs,
            Event.Cleanup]) := by
  obtain ⟨r, hr, hloc, hshape⟩ := Migrate_shape fuel env cfg hf
  exact ⟨r, hr, fun pre i s p post h => (after_break hshape h).2⟩

/-- C4 witness: in the run of `envBoth` the policy answers true after round 1 and the
final round calls `DumpCopyRestore` on the directory of round 1, then `StopIter`. -/
theorem C4_final_round_calls_witness :
    8 ≤ 8 ∧ Migrate 8 envBoth cfg0 = some runBoth ∧
      runBoth.trace = runBoth.trace.take 8 ++
        Event.isLastIter 1 (some ⟨some 10⟩) (some ⟨none⟩) true :: runBoth.trace.drop 9 ∧
      ((∃ e, runBoth.trace.drop 9 = [Event.StartIter (some e), Event.Cleanup] ∧
          runBoth.outcome = Outcome.ret (some e)) ∨
        (∃ ds d rd rs, openedDirs (runBoth.trace.take 8) = ds ++ [d] ∧
          runBoth.trace.drop 9 = [Event.StartIter none, Event.DumpCopyRestore d.Name rd,
            Event.StopIter rs, Event.Cleanup])) := by
  obtain ⟨r, hr, h1⟩ := C4_final_round_calls 8 envBoth cfg0 (le_refl 8)
  cases run_unique hr run_envBoth
  have hsplit : runBoth.trace = runBoth.trace.take 8 ++
      Event.isLastIter 1 (some ⟨some 10⟩) (some ⟨none⟩) true :: runBoth.trace.drop 9 := by
    decide
  exact ⟨le_refl 8, run_envBoth, hsplit, h1 _ _ _ _ _ hsplit⟩

/-- C5 (a negligible dirty set ends the loop).  Whenever the policy is evaluated on
statistics with fewer than `minPagesWritten` pages written, it answers true and what
follows is the final round and the clean-up: no pre-dump, and a single `StartIter`, the
one of the final round. -/
theorem C5_tiny_round_is_last (fuel : Nat) (env : Env) (cfg : Config) (hf : 8 ≤ fuel) :
    ∃ r, Migrate fuel env cfg = some r ∧
      ∀ pre i s p b post, r.trace = pre ++ Event.isLastIter i s p b :: post →
        GetPagesWritten s < minPagesWritten →
        b = true ∧ FinalShape post ∧ post.countP Event.isPreDump = 0 ∧
          post.countP Event.isStartIter = 1 := by
  obtain ⟨r, hr, hloc, hshape⟩ := Migrate_shape fuel env cfg hf
  refine ⟨r, hr, fun pre i s p b post h hlt => ?_⟩
  have hb : b = true := by
    rw [(hloc pre _ post h).2.1]
    exact (isLastIter_iff i s p).2 (Or.inr (Or.inl hlt))
  subst hb
  exact ⟨rfl, finalShape_of_after (after_break hshape h).2⟩

/-- C5 witness: in the run of `envBoth` round 1 reports 10 pages, fewer than 64, and the
final round follows at once. -/
theorem C5_tiny_round_is_last_witness :
    8 ≤ 8 ∧ Migrate 8 envBoth cfg0 = some runBoth ∧
      runBoth.trace = runBoth.trace.take 8 ++
        Event.isLastIter 1 (some ⟨some 10⟩) (some ⟨none⟩) true :: runBoth.trace.drop 9 ∧
      GetPagesWritten (some ⟨some 10⟩) < minPagesWritten ∧
      (true = true ∧ FinalShape (runBoth.trace.drop 9) ∧
        (runBoth.trace.drop 9).countP Event.isPreDump = 0 ∧
        (runBoth.trace.drop 9).countP Event.isStartIter = 1) := by
  obtain ⟨r, hr, h1⟩ := C5_tiny_round_is_last 8 envBoth cfg0 (le_refl 8)
  cases run_unique hr run_envBoth
  have hsplit : runBoth.trace = runBoth.trace.take 8 ++
      Event.isLastIter 1 (some ⟨some 10⟩) (some ⟨none⟩) true :: runBoth.trace.drop 9 := by
    decide
  have hlt : GetPagesWritten (some ⟨some 10⟩) < minPagesWritten := by decide
  exact ⟨le_refl 8, run_envBoth, hsplit, hlt, h1 _ _ _ _ _ _ hsplit hlt⟩

/-- C6, as amended (the divergence guard).  Whenever the policy is evaluated on
statistics whose pages written exceed those of the previous round (zero before the first
round) by at least `maxGrowDelta` and by less than `2 ^ 63`, it answers true and what
follows is the final round and the clean-up; at iteration 1 the previous count is zero. -/
theorem C6_growth_round_is_last (fuel : Nat) (env : Env) (cfg : Config) (hf : 8 ≤ fuel) :
    ∃ r, Migrate fuel env cfg = some r ∧
      ∀ pre i s p b post, r.trace = pre ++ Event.isLastIter i s p b :: post →
        (i = 1 → prevPages pre = 0) ∧
        (maxGrowDelta ≤ (GetPagesWritten s : Int) - (prevPages pre : Int) →
          (GetPagesWritten s : Int) - (prevPages pre : Int) < 2 ^ 63 →
          b = true ∧ FinalShape post ∧ post.countP Event.isPreDump = 0 ∧
            post.countP Event.isStartIter = 1) := by
  obtain ⟨r, hr, hloc, hshape⟩ := Migrate_shape fuel env cfg hf
  refine ⟨r, hr, fun pre i s p b post h => ⟨fun hi => ?_, fun hge hlt => ?_⟩⟩
  · subst hi
    exact first_round_baseline hloc h
  · have hl := hloc pre _ post h
    have hb : b = true := by
      rw [hl.2.1]
      refine (isLastIter_iff i s p).2 (Or.inr (Or.inr ?_))
      rw [hl.2.2.1, toInt64_of_range _ (by unfold maxGrowDelta at hge; omega) hlt]
      exact hge
    subst hb
    exact ⟨rfl, finalShape_of_after (after_break hshape h).2⟩

/-- C6 witness: in the run of `envGrow` round 1 reports 100 pages, 100 more than the zero
baseline, and the final round follows at once. -/
theorem C6_growth_round_is_last_witness :
    8 ≤ 8 ∧ Migrate 8 envGrow cfg0 = some runGrow ∧
      runGrow.trace = runGrow.trace.take 8 ++
        Event.isLastIter 1 (some ⟨some 100⟩) (some ⟨none⟩) true :: runGrow.trace.drop 9 ∧
      maxGrowDelta ≤ (GetPagesWritten (some ⟨some 100⟩) : Int) -
        (prevPages (runGrow.trace.take 8) : Int) ∧
      (GetPagesWritten (some ⟨some 100⟩) : Int) - (prevPages (runGrow.trace.take 8) : Int)
        < 2 ^ 63 ∧
      prevPages (runGrow.trace.take 8) = 0 ∧
      (true = true ∧ FinalShape (runGrow.trace.drop 9) ∧
        (runGrow.trace.drop 9).countP Event.isPreDump = 0 ∧
        (runGrow.trace.drop 9).countP Event.isStartIter = 1) := by
  obtain ⟨r, hr, h1⟩ := C6_growth_round_is_last 8 envGrow cfg0 (le_refl 8)
  cases run_unique hr run_envGrow
  have hsplit : runGrow.trace = runGrow.trace.take 8 ++
      Event.isLastIter 1 (some ⟨some 100⟩) (some ⟨none⟩) true :: runGrow.trace.drop 9 := by
    decide
  have hge : maxGrowDelta ≤ (GetPagesWritten (some ⟨some 100⟩) : Int) -
      (prevPages (runGrow.trace.take 8) : Int) := by decide
  have hlt : (GetPagesWritten (some ⟨some 100⟩) : Int) -
      (prevPages (runGrow.trace.take 8) : Int) < 2 ^ 63 := by decide
  obtain ⟨h2, h3⟩ := h1 _ _ _ _ _ _ hsplit
  exact ⟨le_refl 8, run_envGrow, hsplit, hge, hlt, h2 rfl, h3 hge hlt⟩

/-- C6 as stated fails: in the run of `envHuge` round 1 reports `2 ^ 63` pages, at least
`maxGrowDelta` more than the zero baseline, yet the policy answers false and a second
round follows. -/
theorem C6_counterexample :
    ¬ ∃ r, Migrate 8 envHuge cfg0 = some r ∧
      ∀ pre i s p b post, r.trace = pre ++ Event.isLastIter i s p b :: post →
        maxGrowDelta ≤ (GetPagesWritten s : Int) - (prevPages pre : Int) →
        b = true ∧ FinalShape post ∧ post.countP Event.isPreDump = 0 ∧
          post.countP Event.isStartIter = 1 := by
  rintro ⟨r, hr, h⟩
  cases run_unique hr run_envHuge
  have hsplit : runHuge.trace = runHuge.trace.take 8 ++
      Event.isLastIter 1 (some ⟨some (2 ^ 63)⟩) (some ⟨none⟩) false ::
        runHuge.trace.drop 9 := by decide
  have hb := (h _ _ _ _ _ _ hsplit (by decide)).1
  exact absurd hb (by decide)

/-- C7 (fail fast, no retry).  When a step of the loop body fails (before any `break`),
`Migrate` returns exactly that error and nothing is called after the failing step but the
clean-up, preceded by the `Close` of the round's directory when the step is `PreDump`. -/
theorem C7_fail_fast (fuel : Nat) (env : Env) (cfg : Config) (hf : 8 ≤ fuel) :
    ∃ r, Migrate fuel env cfg = some r ∧
      ∀ pre ev post e, r.trace = pre ++ ev :: post → ev.failure = some e →
        (∀ x ∈ pre, x.isBreak = false) →
        r.outcome = Outcome.ret (some e) ∧
          (post = [Event.Cleanup] ∨
            ∃ o d, ev = Event.PreDump o (some e) ∧ post = [Event.Close d, Event.Cleanup]) := by
  obtain ⟨r, hr, hloc, hshape⟩ := Migrate_shape fuel env cfg hf
  refine ⟨r, hr, fun pre ev post e h hfail hpre => ?_⟩
  obtain ⟨n, T, tpre, hT, rfl, hout, hcase⟩ := after_failure hshape h hfail hpre
  refine ⟨hout, ?_⟩
  rcases hcase with ⟨hpost, -⟩ | ⟨d, o, -, hev, hpost⟩
  · exact Or.inl hpost
  · exact Or.inr ⟨o, d, hev, hpost⟩

/-- C7 witness: in the run of `envStop` the `StopIter` of round 1 fails; `Migrate` returns
that error and only the clean-up follows: no statistics are read. -/
theorem C7_fail_fast_witness :
    8 ≤ 8 ∧ Migrate 8 envStop cfg0 = some runStop ∧
      runStop.trace = runStop.trace.take 6 ++ Event.StopIter (some ⟨"stop"⟩) ::
        [Event.Cleanup] ∧
      (∀ x ∈ runStop.trace.take 6, x.isBreak = false) ∧
      runStop.outcome = Outcome.ret (some ⟨"stop"⟩) := by
  obtain ⟨r, hr, h1⟩ := C7_fail_fast 8 envStop cfg0 (le_refl 8)
  cases run_unique hr run_envStop
  have hsplit : runStop.trace = runStop.trace.take 6 ++ Event.StopIter (some ⟨"stop"⟩) ::
      [Event.Cleanup] := by decide
  have hpre : ∀ x ∈ runStop.trace.take 6, x.isBreak = false := by decide
  exact ⟨le_refl 8, run_envStop, hsplit, hpre, (h1 _ _ _ _ hsplit rfl hpre).1⟩

/-- C8 (a `StartIter` that fails at the start of a loop round).  `Migrate` returns that
error, nothing follows but the clean-up, and the directories opened, the pre-dumps
attempted, the pre-dumps that succeeded and the `StopIter` calls in the whole run are
each as many as the rounds started before the failing one. -/
theorem C8_start_iter_failure (fuel : Nat) (env : Env) (cfg : Config) (hf : 8 ≤ fuel) :
    ∃ r, Migrate fuel env cfg = some r ∧
      ∀ pre e post, r.trace = pre ++ Event.StartIter (some e) :: post →
        (∀ x ∈ pre, x.isBreak = false) →
        r.outcome = Outcome.ret (some e) ∧ post = [Event.Cleanup] ∧
          r.trace.countP Event.isOpened = pre.countP Event.isStartIter ∧
          r.trace.countP Event.isPreDump = pre.countP Event.isStartIter ∧
          r.trace.countP Event.isOkPreDump = pre.countP Event.isStartIter ∧
          r.trace.countP Event.isStopIter = pre.countP Event.isStartIter := by
  obtain ⟨r, hr, hloc, hshape⟩ := Migrate_shape fuel env cfg hf
  refine ⟨r, hr, fun pre e post h hpre => ?_⟩
  obtain ⟨n, T, tpre, hT, rfl, hout, hcase⟩ := after_failure hshape h rfl hpre
  have hc := hT.counts
  rcases hcase with ⟨rfl, ⟨rfl, -⟩ | ⟨-, hev⟩ | ⟨d, o, -, hev⟩ | ⟨d, o, p, -, hev⟩⟩ |
      ⟨d, o, -, hev, -⟩
  · refine ⟨hout, rfl, ?_⟩
    rw [h]
    simp [List.countP_append, hc, Event.isOpened, Event.isPreDump, Event.isOkPreDump,
      Event.isStopIter]
  all_goals simp at hev

/-- C8 witness (the scenario of the spec): in the run of `envPeer` the `StartIter` of
round 3 fails; two directories were opened, two pre-dumps made and two `StopIter` calls
made, all in rounds 1 and 2. -/
theorem C8_start_iter_failure_witness :
    8 ≤ 8 ∧ Migrate 8 envPeer cfg0 = some runPeer ∧
      runPeer.trace = runPeer.trace.take 16 ++ Event.StartIter (some ⟨"peer"⟩) ::
        [Event.Cleanup] ∧
      (∀ x ∈ runPeer.trace.take 16, x.isBreak = false) ∧
      (runPeer.trace.take 16).countP Event.isStartIter = 2 ∧
      runPeer.outcome = Outcome.ret (some ⟨"peer"⟩) ∧
      runPeer.trace.countP Event.isOpened = (runPeer.trace.take 16).countP Event.isStartIter ∧
      runPeer.trace.countP Event.isPreDump = (runPeer.trace.take 16).countP Event.isStartIter ∧
      runPeer.trace.countP Event.isStopIter =
        (runPeer.trace.take 16).countP Event.isStartIter := by
  obtain ⟨r, hr, h1⟩ := C8_start_iter_failure 8 envPeer cfg0 (le_refl 8)
  cases run_unique hr run_envPeer
  have hsplit : runPeer.trace = runPeer.trace.take 16 ++ Event.StartIter (some ⟨"peer"⟩) ::
      [Event.Cleanup] := by decide
  have hpre : ∀ x ∈ runPeer.trace.take 16, x.isBreak = false := by decide
  obtain ⟨h2, -, h3, h4, -, h5⟩ := h1 _ _ _ hsplit hpre
  exact ⟨le_refl 8, run_envPeer, hsplit, hpre, by decide, h2, h3, h4, h5⟩

/-- C9 (the final round runs once after a `break` and never after a failure).  After
the policy has answered true, for the first and only time, what follows is the final
round: one `StartIter` and at most one `DumpCopyRestore` in the whole run.  When a step
of the loop body fails, the run holds no `break` and no `DumpCopyRestore`, and no
`StartIter` follows the failing step. -/
theorem C9_final_round_once (fuel : Nat) (env : Env) (cfg : Config) (hf : 8 ≤ fuel) :
    ∃ r, Migrate fuel env cfg = some r ∧
      (∀ pre i s p post, r.trace = pre ++ Event.isLastIter i s p true :: post →
        (∀ x ∈ pre, x.isBreak = false) ∧ FinalShape post ∧
          post.countP Event.isStartIter = 1 ∧
          r.trace.countP Event.isDumpCopyRestore ≤ 1) ∧
      (∀ pre ev post e, r.trace = pre ++ ev :: post → ev.failure = some e →
        (∀ x ∈ pre, x.isBreak = false) →
        (∀ x ∈ r.trace, x.isBreak = false ∧ x.isDumpCopyRestore = false) ∧
          (∀ x ∈ post, x.isStartIter = false)) := by
  obtain ⟨r, hr, hloc, hshape⟩ := Migrate_shape fuel env cfg hf
  refine ⟨r, hr, fun pre i s p post h => ?_, fun pre ev post e h hfail hpre => ?_⟩
  · obtain ⟨hpre, hpost⟩ := after_break hshape h
    have hfs := finalShape_of_after hpost
    refine ⟨fun x hx => (hpre x hx).1, hfs.1, hfs.2.2, ?_⟩
    have h0 : pre.countP Event.isDumpCopyRestore = 0 := by
      rw [List.countP_eq_zero]
      intro x hx
      simp [(hpre x hx).2]
    rw [h, List.countP_append, h0]
    rcases hpost with ⟨e, rfl, -⟩ | ⟨ds, d, rd, rs, -, rfl⟩ <;>
      simp [Event.isDumpCopyRestore]
  · obtain ⟨n, T, tpre, hT, rfl, hout, hcase⟩ := after_failure hshape h hfail hpre
    have hq := hT.quiet
    rw [h]
    rcases hcase with ⟨rfl, ⟨rfl, rfl⟩ | ⟨rfl, rfl⟩ | ⟨d, o, rfl, rfl⟩ | ⟨d, o, p, rfl, rfl⟩⟩ |
      ⟨d, o, rfl, rfl, rfl⟩ <;>
    · refine ⟨?_, by simp [Event.isStartIter]⟩
      have hT1 : ∀ x ∈ T, x.isBreak = false ∧ x.isDumpCopyRestore = false :=
        fun x hx => ⟨(hq x hx).1, (hq x hx).2.2.1⟩
      simpa [or_imp, forall_and, Event.isBreak, Event.isDumpCopyRestore] using hT1

/-- C9 witness: the run of `envBoth` leaves the loop by `break` and holds one final round;
the run of `envStop` leaves it by a failure and holds no `DumpCopyRestore`. -/
theorem C9_final_round_once_witness :
    8 ≤ 8 ∧ Migrate 8 envBoth cfg0 = some runBoth ∧ Migrate 8 envStop cfg0 = some runStop ∧
      (FinalShape (runBoth.trace.drop 9) ∧
        runBoth.trace.countP Event.isDumpCopyRestore ≤ 1) ∧
      (∀ x ∈ runStop.trace, x.isBreak = false ∧ x.isDumpCopyRestore = false) := by
  obtain ⟨r, hr, h1, -⟩ := C9_final_round_once 8 envBoth cfg0 (le_refl 8)
  cases run_unique hr run_envBoth
  obtain ⟨r, hr, -, h2⟩ := C9_final_round_once 8 envStop cfg0 (le_refl 8)
  cases run_unique hr run_envStop
  have hsplit : runBoth.trace = runBoth.trace.take 8 ++
      Event.isLastIter 1 (some ⟨some 10⟩) (some ⟨none⟩) true :: runBoth.trace.drop 9 := by
    decide
  have hsplit2 : runStop.trace = runStop.trace.take 6 ++ Event.StopIter (some ⟨"stop"⟩) ::
      [Event.Cleanup] := by decide
  obtain ⟨-, h3, -, h4⟩ := h1 _ _ _ _ _ hsplit
  exact ⟨le_refl 8, run_envBoth, run_envStop, ⟨h3, h4⟩,
    (h2 _ _ _ _ hsplit2 rfl (by decide)).1⟩

/-- C10 (directory parenting).  At every call of `PreDump` the directories opened so far
are those of the earlier rounds, one per pre-dump already attempted, and then this
round's directory, whose descriptor the options carry; the options carry no parent image
when there is no earlier directory (round 1), and otherwise the name of the directory
opened in the round before. -/
theorem C10_directory_parenting (fuel : Nat) (env : Env) (cfg : Config) (hf : 8 ≤ fuel) :
    ∃ r, Migrate fuel env cfg = some r ∧
      ∀ pre o res post, r.trace = pre ++ Event.PreDump o res :: post →
        ∃ ds d, openedDirs pre = ds ++ [d] ∧ ds.length = pre.countP Event.isPreDump ∧
          o.ImagesDirFd = some (toInt32 d.Fd) ∧
          (ds = [] → o.ParentImg = none) ∧
          (∀ ds1 d1, ds = ds1 ++ [d1] → o.ParentImg = some d1.Name) := by
  obtain ⟨r, hr, hloc, hshape⟩ := Migrate_shape fuel env cfg hf
  refine ⟨r, hr, fun pre o res post h => ?_⟩
  obtain ⟨ds, d, h1, h2, h3, h4⟩ := hloc pre _ post h
  refine ⟨ds, d, h1, h4, h3, fun h0 => ?_, fun ds1 d1 h0 => ?_⟩
  · rw [h2, h0]; rfl
  · rw [h2, h0]; simp

/-- C10 witness: in the run of `envHuge` the pre-dump of round 2 has the directory of
round 1 as parent image. -/
theorem C10_directory_parenting_witness :
    8 ≤ 8 ∧ Migrate 8 envHuge cfg0 = some runHuge ∧
      runHuge.trace = runHuge.trace.take 11 ++
        Event.PreDump ⟨1234, 4, "pre-dump.log", 5, some 4, some "/tmp/w/0"⟩ none ::
          runHuge.trace.drop 12 ∧
      openedDirs (runHuge.trace.take 11) = [⟨"/tmp/w/0", 3⟩] ++ [⟨"/tmp/w/1", 4⟩] ∧
      ∃ ds d, openedDirs (runHuge.trace.take 11) = ds ++ [d] ∧
        ds.length = (runHuge.trace.take 11).countP Event.isPreDump ∧
        (∀ ds1 d1, ds = ds1 ++ [d1] → some "/tmp/w/0" = some d1.Name) := by
  obtain ⟨r, hr, h1⟩ := C10_directory_parenting 8 envHuge cfg0 (le_refl 8)
  cases run_unique hr run_envHuge
  have hsplit : runHuge.trace = runHuge.trace.take 11 ++
      Event.PreDump ⟨1234, 4, "pre-dump.log", 5, some 4, some "/tmp/w/0"⟩ none ::
        runHuge.trace.drop 12 := by decide
  obtain ⟨ds, d, h2, h3, -, -, h4⟩ := h1 _ _ _ _ hsplit
  exact ⟨le_refl 8, run_envHuge, hsplit, by decide, ds, d, h2, h3, h4⟩

/-- C11 (the peer calls alternate).  The calls made on the peer, in order, begin with a
`StartIter`, and any two consecutive ones are a `StartIter` that succeeded followed by a
`StopIter`, or a `StopIter` that succeeded followed by a `StartIter`. -/
theorem C11_peer_calls_alternate (fuel : Nat) (env : Env) (cfg : Config) (hf : 8 ≤ fuel) :
    ∃ r, Migrate fuel env cfg = some r ∧
      (∀ x ∈ (peerCalls r.trace).head?, x.isStartIter = true) ∧
      (∀ pre a b post, peerCalls r.trace = pre ++ a :: b :: post → peerNext a b) := by
  obtain ⟨r, hr, hloc, hshape⟩ := Migrate_shape fuel env cfg hf
  refine ⟨r, hr, ?_⟩
  suffices h : (∀ x ∈ (peerCalls r.trace).head?, x.isStartIter = true) ∧
      List.Chain' peerNext (peerCalls r.trace) by
    refine ⟨h.1, fun pre a b post hp => ?_⟩
    have hc := h.2
    rw [hp, List.chain'_append] at hc
    exact (List.chain'_cons.1 hc.2.1).1
  cases hshape with
  | prepareFail e => simp [peerCalls, Event.isPeer, Event.isStartIter, Event.isStopIter]
  | imagesFail e => simp [peerCalls, Event.isPeer, Event.isStartIter, Event.isStopIter]
  | _ =>
    refine peer_tail ‹Rounds _ _› ?_ ?_ <;>
      simp [peerCalls, Event.isPeer, Event.isStartIter, Event.isStopIter, peerNext]

/-- C11 witness: the peer calls of the run of `envBoth` are `StartIter`, `StopIter`,
`StartIter`, `StopIter`. -/
theorem C11_peer_calls_alternate_witness :
    8 ≤ 8 ∧ Migrate 8 envBoth cfg0 = some runBoth ∧
      peerCalls runBoth.trace = [] ++ Event.StartIter none :: Event.StopIter none ::
        [Event.StartIter none, Event.StopIter (some ⟨"stop"⟩)] ∧
      peerNext (Event.StartIter none) (Event.StopIter none) := by
  obtain ⟨r, hr, -, h1⟩ := C11_peer_calls_alternate 8 envBoth cfg0 (le_refl 8)
  cases run_unique hr run_envBoth
  have hp : peerCalls runBoth.trace = [] ++ Event.StartIter none :: Event.StopIter none ::
      [Event.StartIter none, Event.StopIter (some ⟨"stop"⟩)] := by decide
  exact ⟨le_refl 8, run_envBoth, hp, h1 _ _ _ _ hp⟩

/-- C12, as amended (pairing of the peer calls).  After every `StartIter` that
succeeded, either the next peer call is a `StopIter`, or the step right after it failed
(the opening of the directory or the pre-dump of a loop round) and `Migrate` returned
that error with no further peer call. -/
theorem C12_start_iter_pairing (fuel : Nat) (env : Env) (cfg : Config) (hf : 8 ≤ fuel) :
    ∃ r, Migrate fuel env cfg = some r ∧
      ∀ pre post, r.trace = pre ++ Event.StartIter none :: post →
        StopIterNext post ∨
        (∃ e, r.outcome = Outcome.ret (some e) ∧
          (post = [Event.openNextDir (Res.err e), Event.Cleanup] ∨
            ∃ d o, post = [Event.openNextDir (Res.ok d), Event.PreDump o (some e),
              Event.Close d, Event.Cleanup])) := by
  obtain ⟨r, hr, hloc, hshape⟩ := Migrate_shape fuel env cfg hf
  refine ⟨r, hr, fun pre post h => ?_⟩
  have hmid : ∀ (d : Dir) (o : CriuOpts) (rs : Option Error) (rest : List Event),
      StopIterNext (Event.openNextDir (Res.ok d) :: Event.PreDump o none :: Event.Close d ::
        Event.StopIter rs :: rest) := by
    intro d o rs rest
    exact ⟨[Event.openNextDir (Res.ok d), Event.PreDump o none, Event.Close d], rs, rest,
      by simp, by simp [Event.isPeer, Event.isStartIter, Event.isStopIter]⟩
  cases hshape with
  | prepareFail e => simpa [Splits] using splits_short h
  | imagesFail e => simpa [Splits] using splits_short h
  | startFail n T e hT hn =>
    rcases locate_run hT h with ⟨post1, h1, rfl⟩ | ⟨tpre, -, h2⟩
    · exact Or.inl (located_start _ h1)
    · simp [Splits] at h2
  | openFail n T e hT hn =>
    rcases locate_run hT h with ⟨post1, h1, rfl⟩ | ⟨tpre, -, h2⟩
    · exact Or.inl (located_start _ h1)
    · simp [Splits] at h2
      obtain ⟨-, rfl⟩ := h2
      exact Or.inr ⟨e, rfl, Or.inl rfl⟩
  | dumpFail n T d o e hT hn =>
    rcases locate_run hT h with ⟨post1, h1, rfl⟩ | ⟨tpre, -, h2⟩
    · exact Or.inl (located_start _ h1)
    · simp [Splits] at h2
      obtain ⟨-, rfl⟩ := h2
      exact Or.inr ⟨e, rfl, Or.inr ⟨d, o, rfl⟩⟩
  | stopFail n T d o e hT hn =>
    rcases locate_run hT h with ⟨post1, h1, rfl⟩ | ⟨tpre, -, h2⟩
    · exact Or.inl (located_start _ h1)
    · simp [Splits] at h2
      obtain ⟨-, rfl⟩ := h2
      exact Or.inl (hmid _ _ _ _)
  | decodeFail n T d o path e hT hn =>
    rcases locate_run hT h with ⟨post1, h1, rfl⟩ | ⟨tpre, -, h2⟩
    · exact Or.inl (located_start _ h1)
    · simp [Splits] at h2
      obtain ⟨-, rfl⟩ := h2
      exact Or.inl (hmid _ _ _ _)
  | panic n T d o path img hT hn =>
    rcases locate_run hT h with ⟨post1, h1, rfl⟩ | ⟨tpre, -, h2⟩
    · exact Or.inl (located_start _ h1)
    · simp [Splits] at h2
      obtain ⟨-, rfl⟩ := h2
      exact Or.inl (hmid _ _ _ _)
  | finalStartFail n T d o path img i s q e hT hn =>
    rcases locate_run hT h with ⟨post1, h1, rfl⟩ | ⟨tpre, -, h2⟩
    · exact Or.inl (located_start _ h1)
    · simp [Splits] at h2
      obtain ⟨-, rfl⟩ := h2
      exact Or.inl (hmid _ _ _ _)
  | final n T d o path img i s q rd rs res hT hn hfail hok =>
    rcases locate_run hT h with ⟨post1, h1, rfl⟩ | ⟨tpre, -, h2⟩
    · exact Or.inl (located_start _ h1)
    · simp [Splits] at h2
      rcases h2 with ⟨-, rfl⟩ | ⟨-, rfl⟩
      · exact Or.inl (hmid _ _ _ _)
      · exact Or.inl ⟨[Event.DumpCopyRestore d.Name rd], rs, [Event.Cleanup], by simp,
          by simp [Event.isPeer, Event.isStartIter, Event.isStopIter]⟩

/-- C12 witness: in the run of `envBoth` the `StartIter` of the final round is followed
by a `StopIter`, after `DumpCopyRestore` has failed. -/
theorem C12_start_iter_pairing_witness :
    8 ≤ 8 ∧ Migrate 8 envBoth cfg0 = some runBoth ∧
      runBoth.trace = runBoth.trace.take 9 ++ Event.StartIter none :: runBoth.trace.drop 10 ∧
      (StopIterNext (runBoth.trace.drop 10) ∨
        (∃ e, runBoth.outcome = Outcome.ret (some e) ∧
          (runBoth.trace.drop 10 = [Event.openNextDir (Res.err e), Event.Cleanup] ∨
            ∃ d o, runBoth.trace.drop 10 = [Event.openNextDir (Res.ok d),
              Event.PreDump o (some e), Event.Close d, Event.Cleanup]))) := by
  obtain ⟨r, hr, h1⟩ := C12_start_iter_pairing 8 envBoth cfg0 (le_refl 8)
  cases run_unique hr run_envBoth
  have hsplit : runBoth.trace = runBoth.trace.take 9 ++ Event.StartIter none ::
      runBoth.trace.drop 10 := by decide
  exact ⟨le_refl 8, run_envBoth, hsplit, h1 _ _ hsplit⟩

/-- C12 as stated fails: in the run of `envDump` the `StartIter` of round 1 succeeds, the
pre-dump fails, and no `StopIter` is called before `Migrate` returns. -/
theorem C12_counterexample :
    ¬ ∃ r, Migrate 8 envDump cfg0 = some r ∧
      ∀ pre post, r.trace = pre ++ Event.StartIter none :: post →
        ∃ x ∈ post, x.isStopIter = true := by
  rintro ⟨r, hr, h⟩
  cases run_unique hr run_envDump
  have hsplit : runDump.trace = runDump.trace.take 2 ++ Event.StartIter none ::
      runDump.trace.drop 3 := by decide
  obtain ⟨x, hx, hs⟩ := h _ _ hsplit
  revert x
  decide

/-- C13 (release of the engine).  When `criu.Prepare` succeeded, `criu.Cleanup` is
called exactly once and it is the last call of the run; when `criu.Prepare` failed it is
not called. -/
theorem C13_cleanup_once (fuel : Nat) (env : Env) (cfg : Config) (hf : 8 ≤ fuel) :
    ∃ r, Migrate fuel env cfg = some r ∧
      (env.Prepare = none →
        r.trace.countP Event.isCleanup = 1 ∧ r.trace.getLast? = some Event.Cleanup) ∧
      (∀ e, env.Prepare = some e → r.trace.countP Event.isCleanup = 0) := by
  obtain ⟨r, hr, hloc, hshape⟩ := Migrate_shape fuel env cfg hf
  have hh := Migrate_head hr
  refine ⟨r, hr, ?_⟩
  cases hshape with
  | prepareFail e =>
    simp at hh
    simp [← hh, Event.isCleanup]
  | imagesFail e =>
    simp at hh
    simp [← hh, Event.isCleanup]
  | _ =>
    obtain ⟨body, hb⟩ := Rounds.head ‹Rounds _ _›
    have hc := (Rounds.counts_close ‹Rounds _ _›).1
    rw [hb] at hh
    simp at hh
    simp [← hh, List.countP_append, hc, Event.isCleanup]

/-- C13 witness: `criu.Prepare` succeeds in `envBoth` and the run ends with its one
clean-up; it fails in `envPrep` and the run holds no clean-up. -/
theorem C13_cleanup_once_witness :
    8 ≤ 8 ∧ Migrate 8 envBoth cfg0 = some runBoth ∧ envBoth.Prepare = none ∧
      runBoth.trace.countP Event.isCleanup = 1 ∧
      runBoth.trace.getLast? = some Event.Cleanup ∧
      Migrate 8 envPrep cfg0 = some runPrep ∧ envPrep.Prepare = some ⟨"prepare"⟩ ∧
      runPrep.trace.countP Event.isCleanup = 0 := by
  obtain ⟨r, hr, h1, -⟩ := C13_cleanup_once 8 envBoth cfg0 (le_refl 8)
  cases run_unique hr run_envBoth
  obtain ⟨r, hr, -, h2⟩ := C13_cleanup_once 8 envPrep cfg0 (le_refl 8)
  cases run_unique hr run_envPrep
  exact ⟨le_refl 8, run_envBoth, rfl, (h1 rfl).1, (h1 rfl).2, run_envPrep, rfl, h2 _ rfl⟩

/-- C14 (a failing `criu.Prepare`).  `Migrate` returns exactly the error of
`criu.Prepare` and has called nothing else: no peer call, no directory, no pre-dump, no
`DumpCopyRestore`, no clean-up. -/
theorem C14_prepare_failure (fuel : Nat) (env : Env) (cfg : Config) (e : Error)
    (h : env.Prepare = some e) :
    ∃ r, Migrate fuel env cfg = some r ∧ r.outcome = Outcome.ret (some e) ∧
      r.trace = [Event.Prepare (some e)] ∧ peerCalls r.trace = [] ∧
      openedDirs r.trace = [] ∧ r.trace.countP Event.isPreDump = 0 ∧
      r.trace.countP Event.isDumpCopyRestore = 0 := by
  refine ⟨⟨Outcome.ret (some e), [Event.Prepare (some e)]⟩, by simp [Migrate, h], rfl, rfl,
    ?_, ?_, ?_, ?_⟩ <;>
    simp [peerCalls, openedDirs, Event.isPeer, Event.isStartIter, Event.isStopIter,
      Event.isPreDump, Event.isDumpCopyRestore]

/-- C14 witness: in `envPrep` the call of `criu.Prepare` fails and the run holds that
call alone. -/
theorem C14_prepare_failure_witness :
    envPrep.Prepare = some ⟨"prepare"⟩ ∧
      ∃ r, Migrate 8 envPrep cfg0 = some r ∧ r.outcome = Outcome.ret (some ⟨"prepare"⟩) ∧
        r.trace = [Event.Prepare (some ⟨"prepare"⟩)] ∧ peerCalls r.trace = [] ∧
        openedDirs r.trace = [] ∧ r.trace.countP Event.isPreDump = 0 ∧
        r.trace.countP Event.isDumpCopyRestore = 0 :=
  ⟨rfl, C14_prepare_failure 8 envPrep cfg0 ⟨"prepare"⟩ rfl⟩

/-- C15, as amended (scenario A).  When the statistics of round 1 report 200 pages, the
policy answers true at iteration 1, by the divergence guard against the zero baseline
(growth 200), the final round follows and the run holds exactly one pre-dump. -/
theorem C15_scenario_A (fuel : Nat) (env : Env) (cfg : Config) (hf : 8 ≤ fuel) :
    ∃ r, Migrate fuel env cfg = some r ∧
      ∀ pre s p b post, r.trace = pre ++ Event.isLastIter 1 s p b :: post →
        GetPagesWritten s = 200 →
        b = true ∧ isLastIterLog 1 s p = (true, some (LogLine.growIter 200)) ∧
          FinalShape post ∧ r.trace.countP Event.isPreDump = 1 := by
  obtain ⟨r, hr, hloc, hshape⟩ := Migrate_shape fuel env cfg hf
  refine ⟨r, hr, fun pre s p b post h hs => ?_⟩
  obtain ⟨hb, hp, hfs, -, hc⟩ := first_round_stops hshape hloc h (by rw [hs]; norm_num)
  refine ⟨hb, ?_, hfs, hc⟩
  have hd : pagesDelta s p = 200 := by
    unfold pagesDelta
    rw [hs, hp]
    decide
  rw [isLastIterLog_eq, hs, hd]
  decide

/-- C15 witness: the run of scenario A stops after one pre-dump. -/
theorem C15_scenario_A_witness :
    8 ≤ 8 ∧ Migrate 8 envA cfg0 = some runA ∧
      runA.trace = runA.trace.take 8 ++
        Event.isLastIter 1 (some ⟨some 200⟩) (some ⟨none⟩) true :: runA.trace.drop 9 ∧
      GetPagesWritten (some ⟨some 200⟩) = 200 ∧
      isLastIterLog 1 (some ⟨some 200⟩) (some ⟨none⟩) = (true, some (LogLine.growIter 200)) ∧
      FinalShape (runA.trace.drop 9) ∧ runA.trace.countP Event.isPreDump = 1 := by
  obtain ⟨r, hr, h1⟩ := C15_scenario_A 8 envA cfg0 (le_refl 8)
  cases run_unique hr run_envA
  have hsplit : runA.trace = runA.trace.take 8 ++
      Event.isLastIter 1 (some ⟨some 200⟩) (some ⟨none⟩) true :: runA.trace.drop 9 := by
    decide
  obtain ⟨-, h2, h3, h4⟩ := h1 _ _ _ _ _ hsplit (by decide)
  exact ⟨le_refl 8, run_envA, hsplit, by decide, h2, h3, h4⟩

/-- C15 as stated fails: the run of scenario A does not hold four pre-dumps. -/
theorem C15_counterexample :
    ¬ ∃ r, Migrate 8 envA cfg0 = some r ∧ r.trace.countP Event.isPreDump = 4 := by
  rintro ⟨r, hr, h⟩
  cases run_unique hr run_envA
  exact absurd h (by decide)

/-- C16, as amended (scenario B).  At iteration 1 with 10 pages written against the zero
baseline the policy answers true, by the rule of the negligible dirty set (10 is below
`minPagesWritten`), and the run of scenario B holds one pre-dump: no iteration 2. -/
theorem C16_scenario_B :
    isLastIter 1 (some ⟨some 10⟩) (some ⟨some 0⟩) = true ∧
      isLastIterLog 1 (some ⟨some 10⟩) (some ⟨some 0⟩) =
        (true, some (LogLine.tinyPreDump 10)) ∧
      pagesDelta (some ⟨some 10⟩) (some ⟨some 0⟩) = 10 ∧
      Migrate 8 envB cfg0 = some runB ∧ runB.trace.countP Event.isPreDump = 1 :=
  ⟨by decide, by decide, by decide, run_envB, by decide⟩

/-- C16 as stated fails: `isLastIter` at iteration 1 with 10 pages written against a
previous count of 0 is not false. -/
theorem C16_counterexample :
    ¬ (isLastIter 1 (some ⟨some 10⟩) (some ⟨some 0⟩) = false) := by
  decide

/-- C17 (the reported stop reason).  `isLastIter` prints a line exactly when it answers
true; the line is the one of the first rule that holds, in the order ceiling, negligible
dirty set, divergence; the negligible line carries the pages written and the divergence
line the growth that was compared with `maxGrowDelta`. -/
theorem C17_stop_reason (iter : Int) (stats prevStats : Option DumpStatsEntry) :
    (isLastIterLog iter stats prevStats).1 = isLastIter iter stats prevStats ∧
    (iter ≥ maxIters →
      isLastIterLog iter stats prevStats = (true, some LogLine.maxItersReached)) ∧
    (iter < maxIters → GetPagesWritten stats < minPagesWritten →
      isLastIterLog iter stats prevStats =
        (true, some (LogLine.tinyPreDump (GetPagesWritten stats : Int)))) ∧
    (iter < maxIters → minPagesWritten ≤ GetPagesWritten stats →
      pagesDelta stats prevStats ≥ maxGrowDelta →
      isLastIterLog iter stats prevStats =
        (true, some (LogLine.growIter (pagesDelta stats prevStats)))) ∧
    (isLastIter iter stats prevStats = true ↔
      ∃ line, (isLastIterLog iter stats prevStats).2 = some line) ∧
    (isLastIter iter stats prevStats = false ↔
      (isLastIterLog iter stats prevStats).2 = none) := by
  refine ⟨rfl, ?_, ?_, ?_, ?_, ?_⟩
  · intro h
    rw [isLastIterLog_eq, if_pos h]
  · intro h1 h2
    rw [isLastIterLog_eq, if_neg (not_le.2 h1), if_pos h2,
      toInt64_of_range _ (by omega) (by unfold minPagesWritten at h2; push_cast; omega)]
  · intro h1 h2 h3
    rw [isLastIterLog_eq, if_neg (not_le.2 h1), if_neg (not_lt.2 h2), if_pos h3]
  · unfold isLastIter
    rw [isLastIterLog_eq]
    split_ifs <;> simp
  · unfold isLastIter
    rw [isLastIterLog_eq]
    split_ifs <;> simp

/-- C17 witness: at iteration 8 with 10 pages written the line is the one of the ceiling,
although the pages written are below the floor. -/
theorem C17_stop_reason_witness :
    (8 : Int) ≥ maxIters ∧ GetPagesWritten (some ⟨some 10⟩) < minPagesWritten ∧
      isLastIterLog 8 (some ⟨some 10⟩) (some ⟨none⟩) = (true, some LogLine.maxItersReached) ∧
      (3 : Int) < maxIters ∧
      isLastIterLog 3 (some ⟨some 10⟩) (some ⟨none⟩) = (true, some (LogLine.tinyPreDump 10)) ∧
      isLastIterLog 3 (some ⟨some 100⟩) (some ⟨some 60⟩) = (true, some (LogLine.growIter 40)) :=
  ⟨by decide, by decide,
    (C17_stop_reason 8 (some ⟨some 10⟩) (some ⟨none⟩)).2.1 (by decide), by decide,
    (C17_stop_reason 3 (some ⟨some 10⟩) (some ⟨none⟩)).2.2.1 (by decide) (by decide),
    (C17_stop_reason 3 (some ⟨some 100⟩) (some ⟨some 60⟩)).2.2.2.1 (by decide) (by decide)
      (by decide)⟩

/-- C18 (closing the directory handle).  Every directory that was opened is closed right
after the `PreDump` of its round has returned, whatever `PreDump` answered, so before
every later call; a `Close` happens nowhere else, and the run holds as many `Close`
calls as opened directories. -/
theorem C18_directory_closed (fuel : Nat) (env : Env) (cfg : Config) (hf : 8 ≤ fuel) :
    ∃ r, Migrate fuel env cfg = some r ∧
      (∀ pre d post, r.trace = pre ++ Event.openNextDir (Res.ok d) :: post →
        ∃ o res rest, post = Event.PreDump o res :: Event.Close d :: rest) ∧
      (∀ pre d post, r.trace = pre ++ Event.Close d :: post →
        ∃ pre1 o res, pre = pre1 ++ [Event.openNextDir (Res.ok d), Event.PreDump o res]) ∧
      r.trace.countP Event.isClose = r.trace.countP Event.isOpened := by
  obtain ⟨r, hr, hloc, hshape⟩ := Migrate_shape fuel env cfg hf
  refine ⟨r, hr, ?_, ?_, ?_⟩
  · intro pre d post h
    cases hshape with
    | prepareFail e => simpa [Splits] using splits_short h
    | imagesFail e => simpa [Splits] using splits_short h
    | _ =>
      rcases locate_run ‹Rounds _ _› h with ⟨post1, h1, rfl⟩ | ⟨tpre, -, h2⟩
      · exact located_open _ h1
      · simp [Splits] at h2
        try (obtain ⟨-, rfl, rfl⟩ := h2; exact ⟨_, _, _, rfl⟩)
  · intro pre d post h
    cases hshape with
    | prepareFail e => simpa [Splits] using splits_short h
    | imagesFail e => simpa [Splits] using splits_short h
    | _ =>
      rcases locate_run ‹Rounds _ _› h with ⟨post1, h1, rfl⟩ | ⟨tpre, h1, h2⟩
      · exact located_close h1
      · simp [Splits] at h2
        try (obtain ⟨h3, h4, -⟩ := h2; subst h4; rw [h1, h3]; exact close_pre _ _ _ _)
  · cases hshape with
    | prepareFail e => simp [Event.isClose, Event.isOpened]
    | imagesFail e => simp [Event.isClose, Event.isOpened]
    | _ =>
      have h1 := (Rounds.counts_close ‹Rounds _ _›).2
      have h2 := (Rounds.counts ‹Rounds _ _›).2.1
      simp [List.countP_append, h1, h2, Event.isClose, Event.isOpened]

/-- C18 witness: in the run of `envDump` the directory of round 1 is closed right after
the pre-dump, which failed. -/
theorem C18_directory_closed_witness :
    8 ≤ 8 ∧ Migrate 8 envDump cfg0 = some runDump ∧
      runDump.trace = runDump.trace.take 3 ++
        Event.openNextDir (Res.ok ⟨"/tmp/w/0", 3⟩) :: runDump.trace.drop 4 ∧
      (∃ o res rest, runDump.trace.drop 4 =
        Event.PreDump o res :: Event.Close ⟨"/tmp/w/0", 3⟩ :: rest) ∧
      runDump.trace.countP Event.isClose = runDump.trace.countP Event.isOpened := by
  obtain ⟨r, hr, h1, -, h3⟩ := C18_directory_closed 8 envDump cfg0 (le_refl 8)
  cases run_unique hr run_envDump
  have hsplit : runDump.trace = runDump.trace.take 3 ++
      Event.openNextDir (Res.ok ⟨"/tmp/w/0", 3⟩) :: runDump.trace.drop 4 := by decide
  exact ⟨le_refl 8, run_envDump, hsplit, h1 _ _ _ hsplit, h3⟩

/-- C19 (the first round always ends the loop).  At iteration 1 against a zero baseline
the policy answers true for every count below `2 ^ 63`, by the rule of the negligible
dirty set when the count is below `minPagesWritten` and by the divergence guard
otherwise; so whenever the statistics of
round 1 report such a count the final round follows and the run holds exactly one
pre-dump; and every run in which `Migrate` returns nil has evaluated the policy at
iteration 1. -/
theorem C19_first_round_stops (fuel : Nat) (env : Env) (cfg : Config) (hf : 8 ≤ fuel) :
    ∃ r, Migrate fuel env cfg = some r ∧
      (∀ s p, GetPagesWritten s < 2 ^ 63 → GetPagesWritten p = 0 →
        isLastIter 1 s p = true ∧
        (GetPagesWritten s < minPagesWritten →
          isLastIterLog 1 s p = (true, some (LogLine.tinyPreDump (GetPagesWritten s : Int)))) ∧
        (minPagesWritten ≤ GetPagesWritten s →
          isLastIterLog 1 s p = (true, some (LogLine.growIter (GetPagesWritten s : Int))))) ∧
      (∀ pre s p b post, r.trace = pre ++ Event.isLastIter 1 s p b :: post →
        GetPagesWritten s < 2 ^ 63 →
        b = true ∧ GetPagesWritten p = 0 ∧ FinalShape post ∧
          r.trace.countP Event.isPreDump = 1) ∧
      (r.outcome = Outcome.ret none →
        ∃ pre s p b post, r.trace = pre ++ Event.isLastIter 1 s p b :: post) := by
  obtain ⟨r, hr, hloc, hshape⟩ := Migrate_shape fuel env cfg hf
  refine ⟨r, hr, fun s p hs hp => ⟨isLastIter_first s p hs hp, ?_, ?_⟩,
    fun pre s p b post h hs => ?_, success_has_first_round hshape hloc⟩
  · intro h1
    rw [isLastIterLog_eq, if_neg (by decide), if_pos h1,
      toInt64_of_range _ (by omega) (by push_cast; omega)]
  · intro h1
    have hd : pagesDelta s p = (GetPagesWritten s : Int) := by
      unfold pagesDelta
      rw [hp, toInt64_of_range (GetPagesWritten s : Int) (by omega) (by push_cast; omega)]
      exact toInt64_of_range _ (by simp [toInt64]; omega) (by simp [toInt64]; omega)
    rw [isLastIterLog_eq, if_neg (by decide), if_neg (not_lt.2 h1), hd, if_pos]
    unfold minPagesWritten at h1
    unfold maxGrowDelta
    omega
  obtain ⟨hb, hp, hfs, -, hc⟩ := first_round_stops hshape hloc h hs
  exact ⟨hb, hp, hfs, hc⟩

/-- C19 witness: in the run of `envGrow` round 1 reports 100 pages and the run holds one
pre-dump. -/
theorem C19_first_round_stops_witness :
    8 ≤ 8 ∧ Migrate 8 envGrow cfg0 = some runGrow ∧
      runGrow.trace = runGrow.trace.take 8 ++
        Event.isLastIter 1 (some ⟨some 100⟩) (some ⟨none⟩) true :: runGrow.trace.drop 9 ∧
      GetPagesWritten (some ⟨some 100⟩) < 2 ^ 63 ∧
      FinalShape (runGrow.trace.drop 9) ∧ runGrow.trace.countP Event.isPreDump = 1 := by
  obtain ⟨r, hr, -, h1, -⟩ := C19_first_round_stops 8 envGrow cfg0 (le_refl 8)
  cases run_unique hr run_envGrow
  have hsplit : runGrow.trace = runGrow.trace.take 8 ++
      Event.isLastIter 1 (some ⟨some 100⟩) (some ⟨none⟩) true :: runGrow.trace.drop 9 := by
    decide
  obtain ⟨-, -, h3, h4⟩ := h1 _ _ _ _ _ hsplit (by decide)
  exact ⟨le_refl 8, run_envGrow, hsplit, by decide, h3, h4⟩

/-- C20 (the growth is a signed 64-bit difference).  When both counts are below `2 ^ 63`
the conversions to `int64` keep them, their difference fits, the growth is the exact
difference and the divergence test is the test on the exact difference; the growth is
what the third rule tests; and with `2 ^ 63` pages written after 0 the growth is
`-2 ^ 63`: the guard does not fire although the exact difference is at least
`maxGrowDelta`. -/
theorem C20_delta_is_signed (stats prevStats : Option DumpStatsEntry) :
    (GetPagesWritten stats < 2 ^ 63 → GetPagesWritten prevStats < 2 ^ 63 →
      toInt64 (GetPagesWritten stats) = GetPagesWritten stats ∧
      toInt64 (GetPagesWritten prevStats) = GetPagesWritten prevStats ∧
      -2 ^ 63 ≤ (GetPagesWritten stats : Int) - (GetPagesWritten prevStats : Int) ∧
      (GetPagesWritten stats : Int) - (GetPagesWritten prevStats : Int) < 2 ^ 63 ∧
      pagesDelta stats prevStats =
        (GetPagesWritten stats : Int) - (GetPagesWritten prevStats : Int) ∧
      (pagesDelta stats prevStats ≥ maxGrowDelta ↔
        (GetPagesWritten stats : Int) - (GetPagesWritten prevStats : Int) ≥ maxGrowDelta)) ∧
    (∀ iter : Int, iter < maxIters → minPagesWritten ≤ GetPagesWritten stats →
      (isLastIter iter stats prevStats = true ↔ pagesDelta stats prevStats ≥ maxGrowDelta)) ∧
    (2 ^ 63 ≤ GetPagesWritten (some ⟨some (2 ^ 63)⟩) ∧
      pagesDelta (some ⟨some (2 ^ 63)⟩) (some ⟨some 0⟩) = -2 ^ 63 ∧
      isLastIter 1 (some ⟨some (2 ^ 63)⟩) (some ⟨some 0⟩) = false ∧
      (GetPagesWritten (some ⟨some (2 ^ 63)⟩) : Int) - (GetPagesWritten (some ⟨some 0⟩) : Int)
        ≥ maxGrowDelta) := by
  refine ⟨fun h1 h2 => ?_, fun iter h1 h2 => ?_, by decide, by decide, by decide, by decide⟩
  · have e1 : toInt64 (GetPagesWritten stats) = GetPagesWritten stats :=
      toInt64_of_range _ (by omega) (by push_cast; omega)
    have e2 : toInt64 (GetPagesWritten prevStats) = GetPagesWritten prevStats :=
      toInt64_of_range _ (by omega) (by push_cast; omega)
    have e3 : pagesDelta stats prevStats =
        (GetPagesWritten stats : Int) - (GetPagesWritten prevStats : Int) := by
      unfold pagesDelta
      rw [e1, e2]
      exact toInt64_of_range _ (by omega) (by omega)
    exact ⟨e1, e2, by omega, by omega, e3, by rw [e3]⟩
  · unfold isLastIter
    rw [isLastIterLog_eq, if_neg (not_le.2 h1), if_neg (not_lt.2 h2)]
    split_ifs with h3 <;> simp [h3]

/-- C20 witness: 100 pages written after 90 give the growth 10, the exact difference. -/
theorem C20_delta_is_signed_witness :
    GetPagesWritten (some ⟨some 100⟩) < 2 ^ 63 ∧ GetPagesWritten (some ⟨some 90⟩) < 2 ^ 63 ∧
      pagesDelta (some ⟨some 100⟩) (some ⟨some 90⟩) =
        (GetPagesWritten (some ⟨some 100⟩) : Int) - (GetPagesWritten (some ⟨some 90⟩) : Int) ∧
      (3 : Int) < maxIters ∧ minPagesWritten ≤ GetPagesWritten (some ⟨some 100⟩) ∧
      (isLastIter 3 (some ⟨some 100⟩) (some ⟨some 90⟩) = true ↔
        pagesDelta (some ⟨some 100⟩) (some ⟨some 90⟩) ≥ maxGrowDelta) :=
  ⟨by decide, by decide,
    ((C20_delta_is_signed (some ⟨some 100⟩) (some ⟨some 90⟩)).1 (by decide)
      (by decide)).2.2.2.2.1,
    by decide, by decide,
    (C20_delta_is_signed (some ⟨some 100⟩) (some ⟨some 90⟩)).2.1 3 (by decide) (by decide)⟩

end Phaul
